import Mathlib

set_option maxHeartbeats 1000000

/-!
Shallow embedding of the `SavingsPlan` contract
(`src/smart-contract/contracts/SavingsPlan.sol`) and proofs about it.

Machine integers (`uint256`) are modeled as `Nat`.  Solidity 0.8 checked
arithmetic reverts on underflow; every subtraction in the embedded code is
either guarded by the same comparison the contract performs, or modeled as an
explicit `Panic` error where the contract can actually underflow.  A reverting
call is an `Except.error`: it carries no post-state, matching the EVM's
all-or-nothing transaction semantics (the caller's state is unchanged).

The USDC token and the pluggable yield source are external collaborators; they
are embedded as a deterministic ledger (`balances`/`allowances`) and a
deterministic mock vault honoring the `IYieldProtocol` interface
(`deposit`/`withdraw`/`getBalance`/`isHealthy`/`emergencyWithdraw`), with
boolean toggles to exercise the contract's try/catch fallback paths.  No claim
below depends on the vault's numeric exchange rate.
-/

namespace SavingsPlan

/-- Account addresses, modeled as naturals; `0` is the zero address. -/
abbrev Addr := Nat

/-- The savings contract's own address in the token ledger. -/
def contractAddr : Addr := 1

/-- Solidity `1 days`, in seconds. -/
def oneDay : Nat := 86400

/-- Solidity `1 hours`, in seconds. -/
def oneHour : Nat := 3600

/-- `PRECISION = 1e18`, the fixed-point scale for yield calculations. -/
def PRECISION : Nat := 10 ^ 18

/-- `MAX_EARLY_WITHDRAWAL_PENALTY = 5000` basis points (50%). -/
def MAX_EARLY_WITHDRAWAL_PENALTY : Nat := 5000

/-- The `Plan` struct of the contract.  `duration` is the enum tag 0..3. -/
structure Plan where
  owner : Addr
  dailyAmount : Nat
  startDate : Nat
  endDate : Nat
  totalTarget : Nat
  accumulatedBalance : Nat
  principalDeposited : Nat
  yieldEarned : Nat
  lastDeductionDate : Nat
  successfulDeductions : Nat
  missedDeductions : Nat
  isActive : Bool
  isCompleted : Bool
  duration : Nat
  deriving Repr, DecidableEq

/-- The all-zero `Plan`, the default value of the `plans` mapping. -/
def Plan.zero : Plan :=
  { owner := 0, dailyAmount := 0, startDate := 0, endDate := 0, totalTarget := 0
    accumulatedBalance := 0, principalDeposited := 0, yieldEarned := 0
    lastDeductionDate := 0, successfulDeductions := 0, missedDeductions := 0
    isActive := false, isCompleted := false, duration := 0 }

/-- The `EmergencyWithdrawal` request struct of the contract. -/
structure EmergencyWithdrawal where
  admin : Addr
  user : Addr
  planId : Nat
  amount : Nat
  scheduledTime : Nat
  executionTime : Nat
  reasonHash : Nat
  executed : Bool
  cancelled : Bool
  deriving Repr, DecidableEq

/-- The all-zero `EmergencyWithdrawal`, default value of the mapping. -/
def EmergencyWithdrawal.zero : EmergencyWithdrawal :=
  { admin := 0, user := 0, planId := 0, amount := 0, scheduledTime := 0
    executionTime := 0, reasonHash := 0, executed := false, cancelled := false }

/--
Key of the `emergencyWithdrawals` mapping.  The contract keys requests by
`keccak256(abi.encodePacked(msg.sender, user, planId, amount, block.timestamp,
reasonHash))`; keccak is collision-free for distinct packed tuples, so the id
is embedded as the tuple itself.  Two `schedule` calls collide (and the second
overwrites the first) exactly when every packed field, the timestamp included,
coincides — exactly as on chain.
-/
structure WId where
  admin : Addr
  user : Addr
  planId : Nat
  amount : Nat
  timestamp : Nat
  reasonHash : Nat
  deriving Repr, DecidableEq

/--
Deterministic mock of the external `IYieldProtocol` vault (an external
collaborator, embedded at its interface boundary): `assets` backs
`getBalance()`, `healthy` backs `isHealthy()`; deposits are credited 1:1 as
shares and withdrawals redeem 1:1 capped by assets.  `depositOk`,
`withdrawOk`, `emergencyOk` toggle the external-failure branches that the
contract guards with try/catch.
-/
structure YieldSrc where
  assets : Nat
  healthy : Bool
  depositOk : Bool
  withdrawOk : Bool
  emergencyOk : Bool
  deriving Repr, DecidableEq

/-- Revert reasons: the contract's custom errors plus the inherited
`Pausable`/`AccessControl` errors, ERC20 transfer failure, and checked
arithmetic `Panic`. -/
inductive Err where
  | InvalidPlanDuration
  | InvalidDailyAmount
  | InvalidPlanId
  | PlanNotActive
  | DeductionAlreadyExecuted
  | InvalidWithdrawalAmount
  | Unauthorized
  | InvalidYieldProtocol
  | YieldProtocolUnhealthy
  | InvalidEmergencyWithdrawal
  | EmergencyWithdrawalNotReady
  | EmergencyWithdrawalAlreadyExecuted
  | EmergencyWithdrawalIsCancelled
  | InvalidParameter
  | EnforcedPause
  | ExpectedPause
  | MissingRole
  | TransferFailed
  | ExternalCallFailed
  | Panic
  deriving Repr, DecidableEq

/-- Full contract state: parameters, global counters, the three mappings, the
pause flag and role sets, plus the embedded external token ledger and yield
vault. -/
structure State where
  paused : Bool
  hasAdminRole : Addr → Bool
  hasKeeperRole : Addr → Bool
  hasEmergencyRole : Addr → Bool
  earlyWithdrawalPenalty : Nat
  minDailyDeduction : Nat
  maxDailyDeduction : Nat
  protocolFeeBps : Nat
  userYieldShareBps : Nat
  minYieldDepositThreshold : Nat
  totalPlans : Nat
  totalPrincipal : Nat
  totalUserYield : Nat
  totalProtocolYield : Nat
  totalYieldShares : Nat
  emergencyWithdrawalDelay : Nat
  lastYieldHarvest : Nat
  yieldHarvestInterval : Nat
  plans : Nat → Plan
  userPlans : Addr → List Nat
  emergencyWithdrawals : WId → EmergencyWithdrawal
  yieldProtocol : Option YieldSrc
  balances : Addr → Nat
  allowances : Addr → Nat

/-- Replace one entry of the `plans` mapping. -/
def setPlan (s : State) (pid : Nat) (p : Plan) : State :=
  { s with plans := fun i => if i = pid then p else s.plans i }

/-- Replace one entry of the `emergencyWithdrawals` mapping. -/
def setEW (s : State) (wid : WId) (w : EmergencyWithdrawal) : State :=
  { s with emergencyWithdrawals := fun i => if i = wid then w else s.emergencyWithdrawals i }

/-- ERC20 transfer inside the embedded ledger; fails (reverting the whole
call, like `safeTransfer`) when the source balance is insufficient. -/
def transferTok (s : State) (src dst : Addr) (amt : Nat) : Except Err State :=
  if s.balances src < amt then .error .TransferFailed
  else
    let b1 : Addr → Nat := fun a => if a = src then s.balances a - amt else s.balances a
    .ok { s with balances := fun a => if a = dst then b1 a + amt else b1 a }

/-- `true` on a successful (non-reverting) call. -/
def resOk {α : Type} : Except Err α → Bool
  | .ok _ => true
  | .error _ => false

/-- Post-state of a call result; a reverted call leaves the pre-state. -/
def postState {α : Type} (s : State) : Except Err (State × α) → State
  | .ok (s', _) => s'
  | .error _ => s

/-- Return value of a call result, with a default for reverted calls. -/
def retOf {α : Type} (d : α) : Except Err (State × α) → α
  | .ok (_, o) => o
  | .error _ => d

/-- Seconds of each `PlanDuration` tag (source lines 362-380). -/
def planDurationSecsOf (durTag : Nat) : Nat :=
  if durTag = 0 then 30 * oneDay
  else if durTag = 1 then 90 * oneDay
  else if durTag = 2 then 180 * oneDay
  else 365 * oneDay

/-- The freshly created plan record (source lines 388-403). -/
def newPlan (caller : Addr) (now dailyAmount durTag : Nat) : Plan :=
  { owner := caller, dailyAmount := dailyAmount, startDate := now
    endDate := now + planDurationSecsOf durTag
    totalTarget := dailyAmount * (planDurationSecsOf durTag / oneDay)
    accumulatedBalance := 0, principalDeposited := 0, yieldEarned := 0
    lastDeductionDate := 0, successfulDeductions := 0, missedDeductions := 0
    isActive := true, isCompleted := false, duration := durTag }

/-- State change of a successful `createPlan` (source lines 386-405). -/
def createApply (s : State) (caller : Addr) (now dailyAmount durTag : Nat) : State :=
  let s1 := setPlan { s with totalPlans := s.totalPlans + 1 } (s.totalPlans + 1)
    (newPlan caller now dailyAmount durTag)
  { s1 with userPlans := fun a =>
      if a = caller then s1.userPlans a ++ [s.totalPlans + 1] else s1.userPlans a }

/--
`createPlan(dailyAmount, duration)` (source lines 354-418): validates the
amount against `[minDailyDeduction, maxDailyDeduction]` and the duration tag,
assigns id `++totalPlans`, and stores a fresh plan.  Modifiers:
`whenNotPaused nonReentrant`.
-/
def createPlan (s : State) (caller : Addr) (now dailyAmount durTag : Nat) :
    Except Err (State × Nat) :=
  if s.paused then .error .EnforcedPause
  else if dailyAmount < s.minDailyDeduction ∨ dailyAmount > s.maxDailyDeduction then
    .error .InvalidDailyAmount
  else if durTag > 3 then .error .InvalidPlanDuration
  else .ok (createApply s caller now dailyAmount durTag, s.totalPlans + 1)

/--
`_depositToYield(amount)` (source lines 1165-1179): moves `amount` USDC from
the contract into the vault and credits the returned shares to
`totalYieldShares`; a failing external `deposit` is swallowed.
-/
def depositToYield (s : State) (amount : Nat) : State :=
  match s.yieldProtocol with
  | none => s
  | some yp =>
    if amount = 0 then s
    else if yp.depositOk then
      let shares := amount
      { s with
        totalYieldShares := s.totalYieldShares + shares
        yieldProtocol := some { yp with assets := yp.assets + amount }
        balances := fun a => if a = contractAddr then s.balances a - amount else s.balances a }
    else s

/--
`_withdrawFromYield(amount)` (source lines 1185-1210): converts the target
amount into shares via `amount * totalYieldShares / getBalance()` (capped at
`totalYieldShares`), redeems them, and on a failing external `withdraw` falls
back to `emergencyWithdraw()` (zeroing `totalYieldShares`); if that also
fails, does nothing.
-/
def withdrawFromYield (s : State) (amount : Nat) : State :=
  match s.yieldProtocol with
  | none => s
  | some yp =>
    if s.totalYieldShares = 0 then s
    else
      let yieldBalance := yp.assets
      if yieldBalance = 0 then s
      else
        let sharesToWithdraw := min (amount * s.totalYieldShares / yieldBalance) s.totalYieldShares
        if yp.withdrawOk then
          let withdrawn := min sharesToWithdraw yp.assets
          { s with
            totalYieldShares := s.totalYieldShares - sharesToWithdraw
            yieldProtocol := some { yp with assets := yp.assets - withdrawn }
            balances := fun a => if a = contractAddr then s.balances a + withdrawn else s.balances a }
        else if yp.emergencyOk then
          { s with
            totalYieldShares := 0
            yieldProtocol := some { yp with assets := 0 }
            balances := fun a => if a = contractAddr then s.balances a + yp.assets else s.balances a }
        else s

/-- Outcome tag of a successful `executeDeduction` call. -/
inductive DedOutcome where
  | matured
  | missed
  | executed
  deriving Repr, DecidableEq

/--
State change of the funded branch of a deduction (source lines 477-485): pull
`dailyAmount` from the owner (debiting balance and allowance), credit the
plan's `accumulatedBalance`/`principalDeposited`, stamp `lastDeductionDate`,
bump `successfulDeductions`, and add to `totalPrincipal`.
-/
def dedApply (s : State) (now planId : Nat) : State :=
  let plan := s.plans planId
  let b1 : Addr → Nat := fun a =>
    if a = plan.owner then s.balances a - plan.dailyAmount else s.balances a
  setPlan
    { s with
      balances := fun a => if a = contractAddr then b1 a + plan.dailyAmount else b1 a
      allowances := fun a =>
        if a = plan.owner then s.allowances a - plan.dailyAmount else s.allowances a
      totalPrincipal := s.totalPrincipal + plan.dailyAmount }
    planId
    { plan with
      accumulatedBalance := plan.accumulatedBalance + plan.dailyAmount
      principalDeposited := plan.principalDeposited + plan.dailyAmount
      lastDeductionDate := now
      successfulDeductions := plan.successfulDeductions + 1 }

/--
Opportunistic sweep after a successful deduction (source lines 487-495): when
a vault is set, the contract balance meets the pooling threshold, and the
vault is healthy, deposit the whole contract balance.
-/
def dedSweep (s : State) : State :=
  match s.yieldProtocol with
  | none => s
  | some yp =>
    if s.balances contractAddr ≥ s.minYieldDepositThreshold ∧ yp.healthy then
      depositToYield s (s.balances contractAddr)
    else s

/--
`executeDeduction(planId)` (source lines 425-504).  Modifier order:
`validPlanId(planId)`, then `whenNotPaused`.  Body: inactive/completed plans
revert `PlanNotActive`; at or past `endDate` the plan is marked completed and
the call returns; duplicate calls revert `DeductionAlreadyExecuted` when the
last deduction was within the past hour or on/after
`expectedDeductionDate - 1 hours`; calls more than an hour before the expected
instant revert `InvalidParameter`; an owner with insufficient balance or
allowance yields a missed deduction (the call succeeds); otherwise the daily
amount is pulled in, the plan and `totalPrincipal` are credited, and the whole
contract balance is swept to the vault when it crosses the pooling threshold
and the vault is healthy.  `expectedDeductionDate - 1 hours` underflows
(Solidity 0.8 panic) when `expectedDeductionDate < 1 hours`.
-/
def executeDeduction (s : State) (_caller : Addr) (now planId : Nat) :
    Except Err (State × DedOutcome) :=
  if planId = 0 ∨ planId > s.totalPlans then .error .InvalidPlanId
  else if s.paused then .error .EnforcedPause
  else if ¬(s.plans planId).isActive ∨ (s.plans planId).isCompleted then
    .error .PlanNotActive
  else if now ≥ (s.plans planId).endDate then
    .ok (setPlan s planId
          { s.plans planId with isActive := false, isCompleted := true }, .matured)
  else if (s.plans planId).lastDeductionDate > 0 ∧
      now ≤ (s.plans planId).lastDeductionDate + oneHour then
    .error .DeductionAlreadyExecuted
  else if (s.plans planId).startDate + (s.plans planId).successfulDeductions * oneDay <
      oneHour then
    .error .Panic
  else if (s.plans planId).lastDeductionDate > 0 ∧
      (s.plans planId).lastDeductionDate ≥
        (s.plans planId).startDate + (s.plans planId).successfulDeductions * oneDay -
          oneHour then
    .error .DeductionAlreadyExecuted
  else if now <
      (s.plans planId).startDate + (s.plans planId).successfulDeductions * oneDay -
        oneHour then
    .error .InvalidParameter
  else if s.balances (s.plans planId).owner < (s.plans planId).dailyAmount ∨
      s.allowances (s.plans planId).owner < (s.plans planId).dailyAmount then
    .ok (setPlan s planId
          { s.plans planId with
            missedDeductions := (s.plans planId).missedDeductions + 1 }, .missed)
  else
    .ok (dedSweep (dedApply s now planId), .executed)

/-- Observable output of a successful `withdraw` call. -/
structure WOut where
  recipient : Addr
  amount : Nat
  requested : Nat
  penalty : Nat
  isEarly : Bool
  deriving Repr, DecidableEq

/-- `requestedAmount` of a withdrawal (source lines 593-596): `amount`, or the
full `accumulatedBalance + yieldEarned` when `amount = 0`. -/
def withdrawRequested (plan : Plan) (amount : Nat) : Nat :=
  if amount = 0 then plan.accumulatedBalance + plan.yieldEarned else amount

/-- Early-withdrawal penalty (source lines 603-607): floored basis-point share
of the requested amount before `endDate`, zero at or after it. -/
def withdrawPenalty (s : State) (now : Nat) (plan : Plan) (amount : Nat) : Nat :=
  if now < plan.endDate then
    withdrawRequested plan amount * s.earlyWithdrawalPenalty / 10000
  else 0

/-- Amount actually transferred by a withdrawal (source lines 604-608):
requested minus penalty when early, requested otherwise. -/
def withdrawPayout (s : State) (now : Nat) (plan : Plan) (amount : Nat) : Nat :=
  if now < plan.endDate then
    withdrawRequested plan amount - withdrawPenalty s now plan amount
  else withdrawRequested plan amount

/-- Plan update of a withdrawal (source lines 610-628): the requested amount
is split pro-rata between principal and yield; the plan completes when both
components reach zero. -/
def withdrawPlanAfter (plan : Plan) (requestedAmount : Nat) : Plan :=
  let availableBalance := plan.accumulatedBalance + plan.yieldEarned
  let principalToWithdraw :=
    if availableBalance > 0 then plan.accumulatedBalance * requestedAmount / availableBalance
    else requestedAmount
  let yieldToWithdraw :=
    if availableBalance > 0 then plan.yieldEarned * requestedAmount / availableBalance
    else 0
  let plan1 : Plan :=
    { plan with
      accumulatedBalance := plan.accumulatedBalance - principalToWithdraw
      yieldEarned := plan.yieldEarned - yieldToWithdraw }
  if plan1.accumulatedBalance = 0 ∧ plan1.yieldEarned = 0 then
    { plan1 with isActive := false, isCompleted := true }
  else plan1

/-- Pull a shortfall of on-hand liquidity from the vault before a payout
(source lines 630-635 and the analogous blocks in `claimYield` and
`executeEmergencyWithdrawal`). -/
def pullLiquidity (s : State) (amt : Nat) : State :=
  if amt > s.balances contractAddr ∧ s.yieldProtocol.isSome then
    withdrawFromYield s (amt - s.balances contractAddr)
  else s

/--
`withdraw(planId, amount)` (source lines 579-649).  Modifiers:
`validPlanId(planId)`, `onlyPlanOwner(planId)`, `nonReentrant` — note there is
no pause modifier.  Body: reverts `PlanNotActive` when `!isActive &&
isCompleted`; `amount = 0` requests the full `accumulatedBalance +
yieldEarned`; oversized requests revert `InvalidWithdrawalAmount`; before
`endDate` a penalty of `requested * earlyWithdrawalPenalty / 10000` is
subtracted from the payout; the request is split pro-rata between principal
and yield; the plan completes when both components reach zero; a shortfall of
on-hand USDC is pulled from the vault before paying `plan.owner`.
-/
def withdraw (s : State) (caller : Addr) (now planId amount : Nat) :
    Except Err (State × WOut) :=
  if planId = 0 ∨ planId > s.totalPlans then .error .InvalidPlanId
  else if (s.plans planId).owner ≠ caller then .error .Unauthorized
  else if ¬(s.plans planId).isActive ∧ (s.plans planId).isCompleted then
    .error .PlanNotActive
  else if withdrawRequested (s.plans planId) amount >
      (s.plans planId).accumulatedBalance + (s.plans planId).yieldEarned then
    .error .InvalidWithdrawalAmount
  else
    match transferTok
        (pullLiquidity
          (setPlan s planId
            (withdrawPlanAfter (s.plans planId) (withdrawRequested (s.plans planId) amount)))
          (withdrawPayout s now (s.plans planId) amount))
        contractAddr (s.plans planId).owner (withdrawPayout s now (s.plans planId) amount) with
    | .error e => .error e
    | .ok s3 =>
      .ok (s3, { recipient := (s.plans planId).owner
                 amount := withdrawPayout s now (s.plans planId) amount
                 requested := withdrawRequested (s.plans planId) amount
                 penalty := withdrawPenalty s now (s.plans planId) amount
                 isEarly := now < (s.plans planId).endDate })

/--
`_calculateTimeFactor(plan)` (source lines 1247-1253): the linear ramp
`timeElapsed * PRECISION / planDuration`, with `timeElapsed` clamped to the
full duration past `endDate`.  `block.timestamp - plan.startDate` underflows
(panic) when the call happens before `startDate` and at or before `endDate`.
-/
def calculateTimeFactor (now : Nat) (plan : Plan) : Except Err Nat :=
  if now > plan.endDate then
    if plan.endDate - plan.startDate = 0 then .ok PRECISION
    else .ok ((plan.endDate - plan.startDate) * PRECISION / (plan.endDate - plan.startDate))
  else if now < plan.startDate then .error .Panic
  else if plan.endDate - plan.startDate = 0 then .ok PRECISION
  else .ok ((now - plan.startDate) * PRECISION / (plan.endDate - plan.startDate))

/--
`getAccumulatedYield(planId)` (source lines 712-726), the read-only accessor:
`(principalDeposited * totalYieldShares / totalPrincipal) * timeFactor /
PRECISION`, then scaled by `userYieldShareBps / 10000`; returns zero when the
plan never deposited or when `totalPrincipal` or `totalYieldShares` is zero.
-/
def getAccumulatedYield (s : State) (now planId : Nat) : Except Err Nat :=
  if planId = 0 ∨ planId > s.totalPlans then .error .InvalidPlanId
  else if (s.plans planId).principalDeposited = 0 then .ok 0
  else if s.totalPrincipal = 0 ∨ s.totalYieldShares = 0 then .ok 0
  else
    match calculateTimeFactor now (s.plans planId) with
    | .error e => .error e
    | .ok timeFactor =>
      .ok ((s.plans planId).principalDeposited * s.totalYieldShares / s.totalPrincipal *
        timeFactor / PRECISION * s.userYieldShareBps / 10000)

/--
The credited amount of `_calculateAndDistributeYield` (source lines
1224-1233): `userShare * totalYield * timeFactor / (totalYieldShares *
PRECISION)` scaled by `userYieldShareBps / 10000`, with `userShare =
principalDeposited * totalYieldShares / totalPrincipal` and `totalYield =
getBalance() - totalPrincipal`.
-/
def distYieldAmount (s : State) (planId timeFactor ypAssets : Nat) : Nat :=
  (s.plans planId).principalDeposited * s.totalYieldShares / s.totalPrincipal *
    (ypAssets - s.totalPrincipal) * timeFactor / (s.totalYieldShares * PRECISION) *
    s.userYieldShareBps / 10000

/--
Modelled from the spec (§4.3): the single formula the spec asserts both the
read path and the mutating path share — the plan's proportional claim
`principalDeposited * totalYieldShares / totalPrincipal`, scaled by the time
factor (a `PRECISION`-scaled ratio) and then by `userYieldShareBps / 10000`.
Written from the spec's words, to compare against the two code paths.
-/
def specSharedYieldFormula (s : State) (planId timeFactor : Nat) : Nat :=
  (s.plans planId).principalDeposited * s.totalYieldShares / s.totalPrincipal *
    timeFactor / PRECISION * s.userYieldShareBps / 10000

/--
`_calculateAndDistributeYield(planId)` (source lines 1217-1240), the mutating
path invoked by `claimYield`: zero when the plan never deposited or the
pool-level guards hit; otherwise credits `distYieldAmount` to
`plan.yieldEarned` and `totalUserYield`.  The unguarded external
`getBalance()` call reverts when no yield protocol is set.
-/
def calculateAndDistributeYield (s : State) (now planId : Nat) :
    Except Err (State × Nat) :=
  if (s.plans planId).principalDeposited = 0 then .ok (s, 0)
  else if s.totalPrincipal = 0 ∨ s.totalYieldShares = 0 then .ok (s, 0)
  else
    match calculateTimeFactor now (s.plans planId) with
    | .error e => .error e
    | .ok timeFactor =>
      match s.yieldProtocol with
      | none => .error .ExternalCallFailed
      | some yp =>
        if yp.assets ≤ s.totalPrincipal then .ok (s, 0)
        else
          .ok (setPlan
                { s with
                  totalUserYield := s.totalUserYield +
                    distYieldAmount s planId timeFactor yp.assets }
                planId
                { s.plans planId with
                  yieldEarned := (s.plans planId).yieldEarned +
                    distYieldAmount s planId timeFactor yp.assets },
               distYieldAmount s planId timeFactor yp.assets)

/--
`claimYield(planId)` (source lines 656-685).  Modifiers: `validPlanId`,
`onlyPlanOwner`, `nonReentrant`.  Distributes yield via
`_calculateAndDistributeYield`, pulls a shortfall from the vault, and pays the
computed amount to the plan owner; a zero-yield claim is a successful no-op.
-/
def claimYield (s : State) (caller : Addr) (now planId : Nat) :
    Except Err (State × Nat) :=
  if planId = 0 ∨ planId > s.totalPlans then .error .InvalidPlanId
  else if (s.plans planId).owner ≠ caller then .error .Unauthorized
  else if ¬(s.plans planId).isActive ∧ ¬(s.plans planId).isCompleted then
    .error .PlanNotActive
  else
    match calculateAndDistributeYield s now planId with
    | .error e => .error e
    | .ok (s1, yieldAmount) =>
      if yieldAmount = 0 then .ok (s1, 0)
      else
        match transferTok (pullLiquidity s1 yieldAmount) contractAddr
            (s.plans planId).owner yieldAmount with
        | .error e => .error e
        | .ok s3 => .ok (s3, yieldAmount)

/--
`harvestYield()` (source lines 949-975).  Modifier: `onlyRole(KEEPER_ROLE)`.
Skips silently with no protocol or inside the rate limit; reverts on an
unhealthy protocol; otherwise splits `getBalance() - totalPrincipal` into
user/protocol portions by `userYieldShareBps`, withdraws it from the vault and
accumulates the two running totals.
-/
def harvestYield (s : State) (caller : Addr) (now : Nat) : Except Err State :=
  if ¬s.hasKeeperRole caller then .error .MissingRole
  else
    match s.yieldProtocol with
    | none => .ok s
    | some yp =>
      if ¬yp.healthy then .error .YieldProtocolUnhealthy
      else if now < s.lastYieldHarvest + s.yieldHarvestInterval then .ok s
      else if yp.assets ≤ s.totalPrincipal then .ok s
      else
        .ok { withdrawFromYield s (yp.assets - s.totalPrincipal) with
              totalUserYield :=
                (withdrawFromYield s (yp.assets - s.totalPrincipal)).totalUserYield +
                  (yp.assets - s.totalPrincipal) * s.userYieldShareBps / 10000
              totalProtocolYield :=
                (withdrawFromYield s (yp.assets - s.totalPrincipal)).totalProtocolYield +
                  ((yp.assets - s.totalPrincipal) -
                    (yp.assets - s.totalPrincipal) * s.userYieldShareBps / 10000)
              lastYieldHarvest := now }

/--
`emergencyExitYield(reasonHash)` (source lines 981-988).  Modifier:
`onlyRole(EMERGENCY_ROLE)`.  Pulls everything out of the vault via its
(unguarded) `emergencyWithdraw()` and zeroes `totalYieldShares`.
-/
def emergencyExitYield (s : State) (caller : Addr) : Except Err State :=
  if ¬s.hasEmergencyRole caller then .error .MissingRole
  else
    match s.yieldProtocol with
    | none => .ok s
    | some yp =>
      if ¬yp.emergencyOk then .error .ExternalCallFailed
      else
        .ok { s with
              totalYieldShares := 0
              yieldProtocol := some { yp with assets := 0 }
              balances := fun a => if a = contractAddr then s.balances a + yp.assets else s.balances a }

/--
`scheduleEmergencyWithdrawal(user, planId, amount, reasonHash)` (source lines
998-1033).  Modifiers: `onlyRole(EMERGENCY_ROLE)` then `whenPaused`.
Validates the plan id and that the plan belongs to `user`, then stores a fresh
request under the deterministic id (overwriting any request with the identical
packed tuple) with `executionTime = now + emergencyWithdrawalDelay`.
-/
def scheduleEmergencyWithdrawal (s : State) (caller user : Addr)
    (now planId amount reasonHash : Nat) : Except Err (State × WId) :=
  if ¬s.hasEmergencyRole caller then .error .MissingRole
  else if ¬s.paused then .error .ExpectedPause
  else if planId = 0 ∨ planId > s.totalPlans then .error .InvalidPlanId
  else if (s.plans planId).owner ≠ user then .error .InvalidParameter
  else
    let wid : WId :=
      { admin := caller, user := user, planId := planId, amount := amount
        timestamp := now, reasonHash := reasonHash }
    .ok (setEW s wid
          { admin := caller, user := user, planId := planId, amount := amount
            scheduledTime := now, executionTime := now + s.emergencyWithdrawalDelay
            reasonHash := reasonHash, executed := false, cancelled := false },
         wid)

/-- Observable output of a successful `executeEmergencyWithdrawal`. -/
structure EWOut where
  recipient : Addr
  amount : Nat
  deriving Repr, DecidableEq

/-- Clamped payout of an emergency withdrawal (source lines 1050-1058):
`amount` (the full balance when 0), capped at `accumulatedBalance +
yieldEarned`. -/
def ewClamp (w : EmergencyWithdrawal) (plan : Plan) : Nat :=
  if (if w.amount = 0 then plan.accumulatedBalance + plan.yieldEarned else w.amount) >
      plan.accumulatedBalance + plan.yieldEarned then
    plan.accumulatedBalance + plan.yieldEarned
  else if w.amount = 0 then plan.accumulatedBalance + plan.yieldEarned else w.amount

/-- Plan update of an emergency withdrawal (source lines 1067-1076): debit
principal first, then yield, and mark the plan completed. -/
def ewPlanAfter (plan : Plan) (wa : Nat) : Plan :=
  if wa ≥ plan.accumulatedBalance then
    { plan with
      yieldEarned := plan.yieldEarned - (wa - plan.accumulatedBalance)
      accumulatedBalance := 0, isActive := false, isCompleted := true }
  else
    { plan with
      accumulatedBalance := plan.accumulatedBalance - wa
      isActive := false, isCompleted := true }

/--
`executeEmergencyWithdrawal(withdrawalId)` (source lines 1039-1091).
Modifiers: `onlyRole(EMERGENCY_ROLE)` then `whenPaused`, `nonReentrant`.
Rejects unknown, executed, cancelled, or not-yet-ready requests; clamps the
amount (`0` meaning the full balance) to `accumulatedBalance + yieldEarned`;
pulls a shortfall from the vault; debits the plan principal-first-then-yield;
marks the plan completed and the request executed; transfers the payout to the
request's recorded `user`.
-/
def executeEmergencyWithdrawal (s : State) (caller : Addr) (now : Nat) (wid : WId) :
    Except Err (State × EWOut) :=
  if ¬s.hasEmergencyRole caller then .error .MissingRole
  else if ¬s.paused then .error .ExpectedPause
  else if (s.emergencyWithdrawals wid).admin = 0 then .error .InvalidEmergencyWithdrawal
  else if (s.emergencyWithdrawals wid).executed then
    .error .EmergencyWithdrawalAlreadyExecuted
  else if (s.emergencyWithdrawals wid).cancelled then
    .error .EmergencyWithdrawalIsCancelled
  else if now < (s.emergencyWithdrawals wid).executionTime then
    .error .EmergencyWithdrawalNotReady
  else
    match transferTok
        (setEW
          (setPlan
            (pullLiquidity s
              (ewClamp (s.emergencyWithdrawals wid)
                (s.plans (s.emergencyWithdrawals wid).planId)))
            (s.emergencyWithdrawals wid).planId
            (ewPlanAfter (s.plans (s.emergencyWithdrawals wid).planId)
              (ewClamp (s.emergencyWithdrawals wid)
                (s.plans (s.emergencyWithdrawals wid).planId))))
          wid { s.emergencyWithdrawals wid with executed := true })
        contractAddr (s.emergencyWithdrawals wid).user
        (ewClamp (s.emergencyWithdrawals wid)
          (s.plans (s.emergencyWithdrawals wid).planId)) with
    | .error e => .error e
    | .ok s3 =>
      .ok (s3, { recipient := (s.emergencyWithdrawals wid).user
                 amount := ewClamp (s.emergencyWithdrawals wid)
                   (s.plans (s.emergencyWithdrawals wid).planId) })

/--
`cancelEmergencyWithdrawal(withdrawalId)` (source lines 1097-1115).  Modifier:
`onlyRole(EMERGENCY_ROLE)` only — there is no pause modifier.  Rejects
unknown, executed, or already-cancelled requests, then sets `cancelled`.
-/
def cancelEmergencyWithdrawal (s : State) (caller : Addr) (wid : WId) :
    Except Err State :=
  if ¬s.hasEmergencyRole caller then .error .MissingRole
  else if (s.emergencyWithdrawals wid).admin = 0 then .error .InvalidEmergencyWithdrawal
  else if (s.emergencyWithdrawals wid).executed then
    .error .EmergencyWithdrawalAlreadyExecuted
  else if (s.emergencyWithdrawals wid).cancelled then
    .error .EmergencyWithdrawalIsCancelled
  else .ok (setEW s wid { s.emergencyWithdrawals wid with cancelled := true })

/--
`withdrawProtocolFees(amount, to)` (source lines 1122-1133).  Modifier:
`onlyRole(DEFAULT_ADMIN_ROLE)`.  Debits `totalProtocolYield` and transfers the
amount to `dst` (the `to` argument).
-/
def withdrawProtocolFees (s : State) (caller : Addr) (amount : Nat) (dst : Addr) :
    Except Err State :=
  if ¬s.hasAdminRole caller then .error .MissingRole
  else if dst = 0 then .error .InvalidParameter
  else if amount > s.totalProtocolYield then .error .InvalidWithdrawalAmount
  else
    transferTok { s with totalProtocolYield := s.totalProtocolYield - amount }
      contractAddr dst amount

/-- `pause()` (source lines 1138-1140): admin-only; `_pause` reverts when
already paused. -/
def pause (s : State) (caller : Addr) : Except Err State :=
  if ¬s.hasAdminRole caller then .error .MissingRole
  else if s.paused then .error .EnforcedPause
  else .ok { s with paused := true }

/-- `unpause()` (source lines 1145-1147): admin-only; `_unpause` reverts when
not paused. -/
def unpause (s : State) (caller : Addr) : Except Err State :=
  if ¬s.hasAdminRole caller then .error .MissingRole
  else if ¬s.paused then .error .ExpectedPause
  else .ok { s with paused := false }

/--
Per-item body of `executeDeductionsBatch` (source lines 516-558): invalid,
inactive, already-served, or premature entries are skipped instead of
reverting; the maturity comparison is strict (`>`), and the duplicate check is
`lastDeductionDate >= expectedDeductionDate` with no one-hour band.  The
premature check still evaluates `expectedDeductionDate - 1 hours`, whose
underflow reverts the whole batch.
-/
def batchItem (s : State) (now planId : Nat) : Except Err State :=
  if planId = 0 ∨ planId > s.totalPlans then .ok s
  else if ¬(s.plans planId).isActive ∨ (s.plans planId).isCompleted then .ok s
  else if now > (s.plans planId).endDate then
    .ok (setPlan s planId
          { s.plans planId with isActive := false, isCompleted := true })
  else if (s.plans planId).lastDeductionDate ≥
      (s.plans planId).startDate + (s.plans planId).successfulDeductions * oneDay then
    .ok s
  else if (s.plans planId).startDate + (s.plans planId).successfulDeductions * oneDay <
      oneHour then
    .error .Panic
  else if now <
      (s.plans planId).startDate + (s.plans planId).successfulDeductions * oneDay -
        oneHour then
    .ok s
  else if s.balances (s.plans planId).owner < (s.plans planId).dailyAmount ∨
      s.allowances (s.plans planId).owner < (s.plans planId).dailyAmount then
    .ok (setPlan s planId
          { s.plans planId with
            missedDeductions := (s.plans planId).missedDeductions + 1 })
  else
    .ok (dedApply s now planId)

/-- Left fold of `batchItem` over the id list, propagating a revert. -/
def batchLoop (s : State) (now : Nat) : List Nat → Except Err State
  | [] => .ok s
  | pid :: rest =>
    match batchItem s now pid with
    | .error e => .error e
    | .ok s' => batchLoop s' now rest

/--
`executeDeductionsBatch(planIds)` (source lines 511-571).  Modifiers:
`whenNotPaused nonReentrant`.  Runs the per-item loop, then sweeps the net new
funds to the vault once if the threshold is met, the vault is healthy, and the
balance grew.
-/
def executeDeductionsBatch (s : State) (_caller : Addr) (now : Nat)
    (planIds : List Nat) : Except Err State :=
  if s.paused then .error .EnforcedPause
  else
    match batchLoop s now planIds with
    | .error e => .error e
    | .ok s1 =>
      match s1.yieldProtocol with
      | none => .ok s1
      | some yp =>
        if s1.balances contractAddr ≥ s1.minYieldDepositThreshold ∧ yp.healthy ∧
            s1.balances contractAddr > s.balances contractAddr then
          .ok (depositToYield s1 (s1.balances contractAddr - s.balances contractAddr))
        else .ok s1

/-- `setYieldProtocol` (source lines 867-886): admin-only; a non-null new
vault must report healthy. -/
def setYieldProtocol (s : State) (caller : Addr) (yp : Option YieldSrc) :
    Except Err State :=
  if ¬s.hasAdminRole caller then .error .MissingRole
  else
    match yp with
    | none => .ok { s with yieldProtocol := none }
    | some v =>
      if ¬v.healthy then .error .YieldProtocolUnhealthy
      else .ok { s with yieldProtocol := some v }

/-- `setEarlyWithdrawalPenalty` (source lines 892-897). -/
def setEarlyWithdrawalPenalty (s : State) (caller : Addr) (p : Nat) :
    Except Err State :=
  if ¬s.hasAdminRole caller then .error .MissingRole
  else if p > MAX_EARLY_WITHDRAWAL_PENALTY then .error .InvalidParameter
  else .ok { s with earlyWithdrawalPenalty := p }

/-- `setDailyDeductionLimits` (source lines 904-915). -/
def setDailyDeductionLimits (s : State) (caller : Addr) (lo hi : Nat) :
    Except Err State :=
  if ¬s.hasAdminRole caller then .error .MissingRole
  else if lo = 0 ∨ lo ≥ hi then .error .InvalidParameter
  else .ok { s with minDailyDeduction := lo, maxDailyDeduction := hi }

/-- `setYieldDistribution` (source lines 922-933). -/
def setYieldDistribution (s : State) (caller : Addr) (userBps feeBps : Nat) :
    Except Err State :=
  if ¬s.hasAdminRole caller then .error .MissingRole
  else if userBps > 10000 then .error .InvalidParameter
  else .ok { s with userYieldShareBps := userBps, protocolFeeBps := feeBps }

/-- `setMinYieldDepositThreshold` (source lines 939-943). -/
def setMinYieldDepositThreshold (s : State) (caller : Addr) (t : Nat) :
    Except Err State :=
  if ¬s.hasAdminRole caller then .error .MissingRole
  else .ok { s with minYieldDepositThreshold := t }

/-- `setEmergencyWithdrawalDelay` (source lines 1153-1157): no validation of
the new delay. -/
def setEmergencyWithdrawalDelay (s : State) (caller : Addr) (d : Nat) :
    Except Err State :=
  if ¬s.hasAdminRole caller then .error .MissingRole
  else .ok { s with emergencyWithdrawalDelay := d }

/-- `grantRole` of the inherited `AccessControl` (admin-gated); role tags:
0 = admin, 1 = keeper, 2 = emergency. -/
def grantRole (s : State) (caller : Addr) (role : Nat) (who : Addr) :
    Except Err State :=
  if ¬s.hasAdminRole caller then .error .MissingRole
  else if role = 0 then
    .ok { s with hasAdminRole := fun a => if a = who then true else s.hasAdminRole a }
  else if role = 1 then
    .ok { s with hasKeeperRole := fun a => if a = who then true else s.hasKeeperRole a }
  else
    .ok { s with hasEmergencyRole := fun a => if a = who then true else s.hasEmergencyRole a }

/-- `revokeRole` of the inherited `AccessControl` (admin-gated). -/
def revokeRole (s : State) (caller : Addr) (role : Nat) (who : Addr) :
    Except Err State :=
  if ¬s.hasAdminRole caller then .error .MissingRole
  else if role = 0 then
    .ok { s with hasAdminRole := fun a => if a = who then false else s.hasAdminRole a }
  else if role = 1 then
    .ok { s with hasKeeperRole := fun a => if a = who then false else s.hasKeeperRole a }
  else
    .ok { s with hasEmergencyRole := fun a => if a = who then false else s.hasEmergencyRole a }

/--
One state-mutating entry point of the contract, with its caller, the block
timestamp of the call, and its arguments.  This covers every external function
of `SavingsPlan.sol` that writes contract state (the inherited
`Ownable2Step` ownership handover touches no state modeled here).
-/
inductive Op where
  | createPlan (caller : Addr) (now dailyAmount durTag : Nat)
  | executeDeduction (caller : Addr) (now planId : Nat)
  | executeDeductionsBatch (caller : Addr) (now : Nat) (planIds : List Nat)
  | withdraw (caller : Addr) (now planId amount : Nat)
  | claimYield (caller : Addr) (now planId : Nat)
  | harvestYield (caller : Addr) (now : Nat)
  | emergencyExitYield (caller : Addr)
  | scheduleEmergencyWithdrawal (caller user : Addr) (now planId amount reasonHash : Nat)
  | executeEmergencyWithdrawal (caller : Addr) (now : Nat) (wid : WId)
  | cancelEmergencyWithdrawal (caller : Addr) (wid : WId)
  | withdrawProtocolFees (caller : Addr) (amount : Nat) (dst : Addr)
  | pause (caller : Addr)
  | unpause (caller : Addr)
  | setYieldProtocol (caller : Addr) (yp : Option YieldSrc)
  | setEarlyWithdrawalPenalty (caller : Addr) (p : Nat)
  | setDailyDeductionLimits (caller : Addr) (lo hi : Nat)
  | setYieldDistribution (caller : Addr) (userBps feeBps : Nat)
  | setMinYieldDepositThreshold (caller : Addr) (t : Nat)
  | setEmergencyWithdrawalDelay (caller : Addr) (d : Nat)
  | grantRole (caller : Addr) (role : Nat) (who : Addr)
  | revokeRole (caller : Addr) (role : Nat) (who : Addr)

/-- Run one entry point, discarding return data: the raw transaction result. -/
def execOp (s : State) : Op → Except Err State
  | .createPlan c now amt dur => (createPlan s c now amt dur).map (·.1)
  | .executeDeduction c now pid => (executeDeduction s c now pid).map (·.1)
  | .executeDeductionsBatch c now pids => executeDeductionsBatch s c now pids
  | .withdraw c now pid amt => (withdraw s c now pid amt).map (·.1)
  | .claimYield c now pid => (claimYield s c now pid).map (·.1)
  | .harvestYield c now => harvestYield s c now
  | .emergencyExitYield c => emergencyExitYield s c
  | .scheduleEmergencyWithdrawal c u now pid amt r =>
    (scheduleEmergencyWithdrawal s c u now pid amt r).map (·.1)
  | .executeEmergencyWithdrawal c now wid =>
    (executeEmergencyWithdrawal s c now wid).map (·.1)
  | .cancelEmergencyWithdrawal c wid => cancelEmergencyWithdrawal s c wid
  | .withdrawProtocolFees c amt dst => withdrawProtocolFees s c amt dst
  | .pause c => pause s c
  | .unpause c => unpause s c
  | .setYieldProtocol c yp => setYieldProtocol s c yp
  | .setEarlyWithdrawalPenalty c p => setEarlyWithdrawalPenalty s c p
  | .setDailyDeductionLimits c lo hi => setDailyDeductionLimits s c lo hi
  | .setYieldDistribution c u f => setYieldDistribution s c u f
  | .setMinYieldDepositThreshold c t => setMinYieldDepositThreshold s c t
  | .setEmergencyWithdrawalDelay c d => setEmergencyWithdrawalDelay s c d
  | .grantRole c r w => grantRole s c r w
  | .revokeRole c r w => revokeRole s c r w

/-- Transaction semantics of one call: a reverted call leaves the state
unchanged. -/
def step (s : State) (op : Op) : State :=
  match execOp s op with
  | .ok s' => s'
  | .error _ => s

/-- Run a sequence of calls. -/
def run (s : State) : List Op → State
  | [] => s
  | op :: ops => run (step s op) ops

/-- Whether a call is a successful `executeEmergencyWithdrawal` of the given
request id, starting from the given state. -/
def execEWSucceeds (s : State) (op : Op) (wid : WId) : Bool :=
  match op with
  | .executeEmergencyWithdrawal c now wid' =>
    wid' = wid ∧ resOk (executeEmergencyWithdrawal s c now wid)
  | _ => false

/-- Number of successful `executeEmergencyWithdrawal(wid)` calls along a
trace. -/
def countExecEW (s : State) (ops : List Op) (wid : WId) : Nat :=
  match ops with
  | [] => 0
  | op :: rest =>
    (if execEWSucceeds s op wid then 1 else 0) + countExecEW (step s op) rest wid

/-- Whether a call is a `scheduleEmergencyWithdrawal` that writes the given
request id (identical admin, user, plan, amount, timestamp and reason). -/
def schedulesWId (op : Op) (wid : WId) : Bool :=
  match op with
  | .scheduleEmergencyWithdrawal c u now pid amt r =>
    c = wid.admin ∧ u = wid.user ∧ pid = wid.planId ∧ amt = wid.amount ∧
      now = wid.timestamp ∧ r = wid.reasonHash
  | _ => false

/-- Whether a call is a `withdrawProtocolFees` transaction. -/
def isWithdrawProtocolFees : Op → Bool
  | .withdrawProtocolFees _ _ _ => true
  | _ => false

/-- The all-zero `WOut`. -/
def WOut.zero : WOut :=
  { recipient := 0, amount := 0, requested := 0, penalty := 0, isEarly := false }

/-- The all-zero `EWOut`. -/
def EWOut.zero : EWOut := { recipient := 0, amount := 0 }

/--
The two states agree on all contract storage except the token ledger and the
yield-share bookkeeping (`balances`, `allowances`, `totalYieldShares`,
`yieldProtocol`): the frame that `_depositToYield`, `_withdrawFromYield` and
ERC20 transfers are allowed to touch.
-/
structure EqCore (s t : State) : Prop where
  pausedEq : s.paused = t.paused
  adminEq : s.hasAdminRole = t.hasAdminRole
  keeperEq : s.hasKeeperRole = t.hasKeeperRole
  emergEq : s.hasEmergencyRole = t.hasEmergencyRole
  penaltyEq : s.earlyWithdrawalPenalty = t.earlyWithdrawalPenalty
  minDedEq : s.minDailyDeduction = t.minDailyDeduction
  maxDedEq : s.maxDailyDeduction = t.maxDailyDeduction
  feeEq : s.protocolFeeBps = t.protocolFeeBps
  shareEq : s.userYieldShareBps = t.userYieldShareBps
  threshEq : s.minYieldDepositThreshold = t.minYieldDepositThreshold
  totalPlansEq : s.totalPlans = t.totalPlans
  totalPrincipalEq : s.totalPrincipal = t.totalPrincipal
  totalUserYieldEq : s.totalUserYield = t.totalUserYield
  totalProtocolYieldEq : s.totalProtocolYield = t.totalProtocolYield
  delayEq : s.emergencyWithdrawalDelay = t.emergencyWithdrawalDelay
  harvestEq : s.lastYieldHarvest = t.lastYieldHarvest
  intervalEq : s.yieldHarvestInterval = t.yieldHarvestInterval
  plansEq : s.plans = t.plans
  userPlansEq : s.userPlans = t.userPlans
  ewsEq : s.emergencyWithdrawals = t.emergencyWithdrawals

/-- The four global counters of the claim never decrease from `s` to `t`. -/
structure Mono4 (s t : State) : Prop where
  plansLe : s.totalPlans ≤ t.totalPlans
  principalLe : s.totalPrincipal ≤ t.totalPrincipal
  userYieldLe : s.totalUserYield ≤ t.totalUserYield
  protocolYieldLe : s.totalProtocolYield ≤ t.totalProtocolYield

/--
Concrete test-harness state holding a single plan under id 1: admin address 5,
keeper 6, emergency responder 7; 10% early-withdrawal penalty; no yield
protocol; the contract holds 1000 tokens on hand.
-/
def mkState (p : Plan) : State :=
  { paused := false
    hasAdminRole := fun a => a == 5
    hasKeeperRole := fun a => a == 6
    hasEmergencyRole := fun a => a == 7
    earlyWithdrawalPenalty := 1000
    minDailyDeduction := 1
    maxDailyDeduction := 1000000
    protocolFeeBps := 1000
    userYieldShareBps := 10000
    minYieldDepositThreshold := 1000000000
    totalPlans := 1
    totalPrincipal := p.principalDeposited
    totalUserYield := 0
    totalProtocolYield := 0
    totalYieldShares := 0
    emergencyWithdrawalDelay := 172800
    lastYieldHarvest := 0
    yieldHarvestInterval := 86400
    plans := fun i => if i = 1 then p else Plan.zero
    userPlans := fun a => if a = p.owner then [1] else []
    emergencyWithdrawals := fun _ => EmergencyWithdrawal.zero
    yieldProtocol := none
    balances := fun a => if a = contractAddr then 1000 else 0
    allowances := fun _ => 0 }

/--
The spec's §8 scenario plan: a 30-day plan (daily amount 10, start 1000000,
end 3592000) owned by address 2 that has executed all 30 deductions
(`accumulatedBalance = 300`) and is about to mature.
-/
def c1Plan : Plan :=
  { owner := 2, dailyAmount := 10, startDate := 1000000, endDate := 3592000
    totalTarget := 300, accumulatedBalance := 300, principalDeposited := 300
    yieldEarned := 0, lastDeductionDate := 3505600, successfulDeductions := 30
    missedDeductions := 0, isActive := true, isCompleted := false, duration := 0 }

def c1S : State := mkState c1Plan

/-- The state right after `executeDeduction` performs the day-30 maturity
transition on the scenario plan. -/
def c1After : State := postState c1S (executeDeduction c1S 6 3592000 1)

/-- A young plan (one successful deduction, balance 10) used for the penalty
rounding and deduction-timing counterexamples. -/
def youngPlan : Plan :=
  { owner := 2, dailyAmount := 10, startDate := 1000000, endDate := 3592000
    totalTarget := 300, accumulatedBalance := 10, principalDeposited := 10
    yieldEarned := 0, lastDeductionDate := 1000000, successfulDeductions := 1
    missedDeductions := 0, isActive := true, isCompleted := false, duration := 0 }

/-- Harness state with a 33.33% early-withdrawal penalty. -/
def c5S : State := { mkState youngPlan with earlyWithdrawalPenalty := 3333 }

def c6S : State := mkState youngPlan

/-- A plan five days in whose owner no longer holds any tokens, so the next
deduction is missed. -/
def c7Plan : Plan :=
  { owner := 2, dailyAmount := 10, startDate := 1000000, endDate := 3592000
    totalTarget := 300, accumulatedBalance := 50, principalDeposited := 50
    yieldEarned := 0, lastDeductionDate := 1345600, successfulDeductions := 5
    missedDeductions := 0, isActive := true, isCompleted := false, duration := 0 }

def c7S : State := mkState c7Plan

/-- Harness state carrying 5 units of accrued protocol yield. -/
def c8S : State := { mkState c1Plan with totalProtocolYield := 5 }

/-- A fully matured plan holding the entire principal pool, next to a vault
whose balance exceeds `totalPrincipal` by 50: the two yield paths disagree
here. -/
def c9Plan : Plan :=
  { owner := 2, dailyAmount := 1, startDate := 1000, endDate := 2000
    totalTarget := 1000, accumulatedBalance := 1000, principalDeposited := 1000
    yieldEarned := 0, lastDeductionDate := 1900, successfulDeductions := 1000
    missedDeductions := 0, isActive := true, isCompleted := false, duration := 0 }

def c9S : State :=
  { mkState c9Plan with
    totalYieldShares := 100
    yieldProtocol := some
      { assets := 1050, healthy := true, depositOk := true, withdrawOk := true
        emergencyOk := true } }

/-- A pending emergency-withdrawal request for plan 1, scheduled by admin 7 at
time 5000. -/
def c2Wid : WId :=
  { admin := 7, user := 2, planId := 1, amount := 0, timestamp := 5000, reasonHash := 9 }

def c2Req : EmergencyWithdrawal :=
  { admin := 7, user := 2, planId := 1, amount := 0, scheduledTime := 5000
    executionTime := 177800, reasonHash := 9, executed := false, cancelled := false }

/-- Unpaused state carrying the pending request: `cancelEmergencyWithdrawal`
succeeds here. -/
def c2aS : State :=
  { mkState c1Plan with
    emergencyWithdrawals := fun i => if i = c2Wid then c2Req else EmergencyWithdrawal.zero }

/-- Paused state with a mature plan: `withdraw` succeeds here. -/
def c2bS : State := { mkState c1Plan with paused := true }

/-- Paused state carrying the pending request, past its `executionTime`:
`executeEmergencyWithdrawal` succeeds here. -/
def c3S : State :=
  { mkState c1Plan with
    paused := true
    emergencyWithdrawals := fun i => if i = c2Wid then c2Req else EmergencyWithdrawal.zero }

/-- Paused harness state with a short (100s) emergency delay, used to build
the re-scheduling trace of the C4 counterexample. -/
def c4S : State := { mkState c1Plan with paused := true, emergencyWithdrawalDelay := 100 }

def c4Wid : WId :=
  { admin := 7, user := 2, planId := 1, amount := 0, timestamp := 5000, reasonHash := 9 }

def c4Op1 : Op := .scheduleEmergencyWithdrawal 7 2 5000 1 0 9

def c4Op2 : Op := .cancelEmergencyWithdrawal 7 c4Wid

def c4Op3 : Op := .scheduleEmergencyWithdrawal 7 2 5000 1 0 9

def c4Op4 : Op := .executeEmergencyWithdrawal 7 5200 c4Wid

/-- The state after scheduling and then cancelling the request. -/
def c4Mid : State := run c4S [c4Op1, c4Op2]

theorem resOk_iff_ok {α : Type} {r : Except Err α} :
    resOk r = true ↔ ∃ x, r = .ok x := by
  cases r <;> simp [resOk]

theorem postState_ok {α : Type} {s s' : State} {o : α} {r : Except Err (State × α)}
    (h : r = .ok (s', o)) : postState s r = s' := by
  subst h; rfl

theorem retOf_ok {α : Type} {d : α} {s' : State} {o : α} {r : Except Err (State × α)}
    (h : r = .ok (s', o)) : retOf d r = o := by
  subst h; rfl

theorem EqCore.refl (s : State) : EqCore s s :=
  ⟨rfl, rfl, rfl, rfl, rfl, rfl, rfl, rfl, rfl, rfl, rfl,
    rfl, rfl, rfl, rfl, rfl, rfl, rfl, rfl, rfl⟩

theorem EqCore.transEq {s t u : State} (h1 : EqCore s t) (h2 : EqCore t u) : EqCore s u :=
  ⟨h1.pausedEq.trans h2.pausedEq, h1.adminEq.trans h2.adminEq,
    h1.keeperEq.trans h2.keeperEq, h1.emergEq.trans h2.emergEq,
    h1.penaltyEq.trans h2.penaltyEq, h1.minDedEq.trans h2.minDedEq,
    h1.maxDedEq.trans h2.maxDedEq, h1.feeEq.trans h2.feeEq,
    h1.shareEq.trans h2.shareEq, h1.threshEq.trans h2.threshEq,
    h1.totalPlansEq.trans h2.totalPlansEq, h1.totalPrincipalEq.trans h2.totalPrincipalEq,
    h1.totalUserYieldEq.trans h2.totalUserYieldEq,
    h1.totalProtocolYieldEq.trans h2.totalProtocolYieldEq,
    h1.delayEq.trans h2.delayEq, h1.harvestEq.trans h2.harvestEq,
    h1.intervalEq.trans h2.intervalEq, h1.plansEq.trans h2.plansEq,
    h1.userPlansEq.trans h2.userPlansEq, h1.ewsEq.trans h2.ewsEq⟩

theorem depositToYield_eqCore (s : State) (a : Nat) : EqCore s (depositToYield s a) := by
  unfold depositToYield
  cases s.yieldProtocol <;> simp only []
  · exact EqCore.refl s
  · split
    · exact EqCore.refl s
    · split
      · exact ⟨rfl, rfl, rfl, rfl, rfl, rfl, rfl, rfl, rfl, rfl, rfl, rfl, rfl, rfl,
          rfl, rfl, rfl, rfl, rfl, rfl⟩
      · exact EqCore.refl s

theorem withdrawFromYield_eqCore (s : State) (a : Nat) : EqCore s (withdrawFromYield s a) := by
  unfold withdrawFromYield
  cases s.yieldProtocol <;> simp only []
  · exact EqCore.refl s
  · split
    · exact EqCore.refl s
    · split
      · exact EqCore.refl s
      · split
        · exact ⟨rfl, rfl, rfl, rfl, rfl, rfl, rfl, rfl, rfl, rfl, rfl, rfl, rfl, rfl,
            rfl, rfl, rfl, rfl, rfl, rfl⟩
        · split
          · exact ⟨rfl, rfl, rfl, rfl, rfl, rfl, rfl, rfl, rfl, rfl, rfl, rfl, rfl, rfl,
              rfl, rfl, rfl, rfl, rfl, rfl⟩
          · exact EqCore.refl s

theorem transferTok_eqCore {s t : State} {a b n : Nat} (h : transferTok s a b n = .ok t) :
    EqCore s t := by
  unfold transferTok at h
  split at h
  · exact absurd h (by simp)
  · obtain rfl : _ = t := by injection h
    exact ⟨rfl, rfl, rfl, rfl, rfl, rfl, rfl, rfl, rfl, rfl, rfl, rfl, rfl, rfl,
      rfl, rfl, rfl, rfl, rfl, rfl⟩

theorem map_fst_ok {α : Type} {x : Except Err (State × α)} {s' : State}
    (h : x.map (·.1) = .ok s') : ∃ o, x = .ok (s', o) := by
  cases x with
  | error e => exact absurd h (by simp [Except.map])
  | ok p =>
    obtain ⟨a, b⟩ := p
    refine ⟨b, ?_⟩
    simp only [Except.map, Except.ok.injEq] at h
    rw [h]

theorem setPlan_plans_self (s : State) (pid : Nat) (p : Plan) :
    (setPlan s pid p).plans pid = p := by
  simp [setPlan]

theorem setPlan_plans_other (s : State) (pid pid' : Nat) (p : Plan) (h : pid' ≠ pid) :
    (setPlan s pid p).plans pid' = s.plans pid' := by
  simp [setPlan, h]

theorem pullLiquidity_eqCore (s : State) (amt : Nat) : EqCore s (pullLiquidity s amt) := by
  unfold pullLiquidity
  split
  · exact withdrawFromYield_eqCore s _
  · exact EqCore.refl s

theorem ewClamp_eq_min (w : EmergencyWithdrawal) (plan : Plan) :
    ewClamp w plan =
      min (if w.amount = 0 then plan.accumulatedBalance + plan.yieldEarned else w.amount)
        (plan.accumulatedBalance + plan.yieldEarned) := by
  unfold ewClamp
  generalize (if w.amount = 0 then plan.accumulatedBalance + plan.yieldEarned
    else w.amount) = x
  split <;> omega

theorem ewPlanAfter_isActive (plan : Plan) (wa : Nat) :
    (ewPlanAfter plan wa).isActive = false := by
  unfold ewPlanAfter
  split <;> rfl

theorem ewPlanAfter_isCompleted (plan : Plan) (wa : Nat) :
    (ewPlanAfter plan wa).isCompleted = true := by
  unfold ewPlanAfter
  split <;> rfl

theorem ewPlanAfter_acc (plan : Plan) (wa : Nat) :
    (ewPlanAfter plan wa).accumulatedBalance = plan.accumulatedBalance - wa := by
  unfold ewPlanAfter
  split
  · show 0 = _
    omega
  · rfl

theorem ewPlanAfter_yield (plan : Plan) (wa : Nat) :
    (ewPlanAfter plan wa).yieldEarned =
      plan.yieldEarned - (wa - plan.accumulatedBalance) := by
  unfold ewPlanAfter
  split
  · rfl
  · show plan.yieldEarned = _
    omega

/--
**C1.** The spec's maturity scenario evaluated on the code: on day 30 the
maturity check inside `executeDeduction` completes the plan
(`isActive = false`, `isCompleted = true`) with `accumulatedBalance +
yieldEarned = 300 > 0`, yet the owner's subsequent `withdraw(planId, 0)` at
`endDate` reverts with `PlanNotActive` instead of paying out 300 — the guard
`!isActive && isCompleted` fires for every completed plan, balance or not,
contradicting the function's own documentation ("Withdraw funds from a
completed or active plan" / "Plan already completed and withdrawn").
-/
theorem c1_matured_plan_withdraw_reverts :
    resOk (executeDeduction c1S 6 3592000 1) = true ∧
    retOf DedOutcome.executed (executeDeduction c1S 6 3592000 1) = DedOutcome.matured ∧
    (c1After.plans 1).isActive = false ∧
    (c1After.plans 1).isCompleted = true ∧
    (c1After.plans 1).accumulatedBalance + (c1After.plans 1).yieldEarned = 300 ∧
    (c1After.plans 1).endDate ≤ 3592000 ∧
    (c1After.plans 1).owner = 2 ∧
    withdraw c1After 2 3592000 1 0 = .error .PlanNotActive := by
  exact ⟨rfl, rfl, rfl, rfl, rfl, by decide, rfl, rfl⟩

/--
**C2 (counterexample).** The pause coupling claimed by the spec fails twice on
the code: `cancelEmergencyWithdrawal` succeeds in an unpaused state (it has no
`whenPaused` modifier), and `withdraw` succeeds in a paused state (it has no
`whenNotPaused` modifier).
-/
theorem c2_pause_gating_counterexample :
    c2aS.paused = false ∧
    resOk (cancelEmergencyWithdrawal c2aS 7 c2Wid) = true ∧
    c2bS.paused = true ∧
    resOk (withdraw c2bS 2 3592000 1 0) = true := by
  exact ⟨rfl, rfl, rfl, rfl⟩

/--
**C4 (counterexample).** A successfully cancelled emergency-withdrawal
request can still be executed later: an identical `schedule` call at the same
block timestamp recomputes the same request id and overwrites the cancelled
record with a fresh one, after which `execute` succeeds.  Trace: schedule at
t=5000, cancel (succeeds, `cancelled = true`), re-schedule identically at
t=5000, execute at t=5200 — one success after the cancellation.
-/
theorem c4_reschedule_counterexample :
    resOk (cancelEmergencyWithdrawal (step c4S c4Op1) 7 c4Wid) = true ∧
    (c4Mid.emergencyWithdrawals c4Wid).cancelled = true ∧
    countExecEW c4Mid [c4Op3, c4Op4] c4Wid = 1 := by
  exact ⟨rfl, rfl, rfl⟩

/--
**C5 (counterexample).** With `penaltyBps = 3333`, an early withdrawal of 3
transfers 3 (the code computes `requested - requested * penaltyBps / 10000`
with the penalty floored to 0), while the claim's formula
`requested * (10000 - penaltyBps) / 10000` gives 2.
-/
theorem c5_penalty_rounding_counterexample :
    c5S.earlyWithdrawalPenalty = 3333 ∧
    resOk (withdraw c5S 2 2000000 1 3) = true ∧
    (retOf WOut.zero (withdraw c5S 2 2000000 1 3)).isEarly = true ∧
    (retOf WOut.zero (withdraw c5S 2 2000000 1 3)).amount = 3 ∧
    (3 : Nat) * (10000 - 3333) / 10000 = 2 ∧
    (3 : Nat) ≠ 2 := by
  exact ⟨rfl, rfl, rfl, rfl, by decide, by decide⟩

/--
**C6 (counterexample).** A call more than one hour before the expected
deduction instant does not necessarily revert with `InvalidParameter`: when
the previous deduction also ran within the past hour, the duplicate check
fires first and the call reverts with `DeductionAlreadyExecuted`.  Here the
plan is active, unmatured, `lastDeductionDate = 1000000 > 0`, the call at
1000500 is more than an hour before the expected instant 1086400, yet the
error is `DeductionAlreadyExecuted`.
-/
theorem c6_premature_vs_duplicate_counterexample :
    (c6S.plans 1).isActive = true ∧
    (c6S.plans 1).isCompleted = false ∧
    1000500 < (c6S.plans 1).endDate ∧
    (c6S.plans 1).lastDeductionDate > 0 ∧
    1000500 + oneHour <
      (c6S.plans 1).startDate + (c6S.plans 1).successfulDeductions * oneDay ∧
    executeDeduction c6S 6 1000500 1 = .error .DeductionAlreadyExecuted ∧
    Err.DeductionAlreadyExecuted ≠ Err.InvalidParameter := by
  exact ⟨rfl, rfl, by decide, by decide, by decide, rfl, by decide⟩

/--
**C7 (counterexample).** A missed deduction does not advance the plan's next
scheduled slot: the slot just processed is `startDate + successfulDeductions *
1 day = 1432000`, and after the miss (owner balance 0 < dailyAmount) the next
scheduled slot is still 1432000, not 1432000 + 1 day, because
`successfulDeductions` is unchanged.
-/
theorem c7_slot_advance_counterexample :
    resOk (executeDeduction c7S 6 1432000 1) = true ∧
    retOf DedOutcome.executed (executeDeduction c7S 6 1432000 1) = DedOutcome.missed ∧
    (c7S.plans 1).startDate + (c7S.plans 1).successfulDeductions * oneDay = 1432000 ∧
    ((postState c7S (executeDeduction c7S 6 1432000 1)).plans 1).missedDeductions = 1 ∧
    ((postState c7S (executeDeduction c7S 6 1432000 1)).plans 1).startDate +
      ((postState c7S (executeDeduction c7S 6 1432000 1)).plans 1).successfulDeductions *
        oneDay = 1432000 ∧
    (1432000 : Nat) ≠ 1432000 + oneDay := by
  exact ⟨rfl, rfl, by decide, rfl, by decide, by decide⟩

/--
**C8 (counterexample).** `totalProtocolYield` is not monotonic: a successful
`withdrawProtocolFees(3, ·)` from a state with `totalProtocolYield = 5`
leaves it at `2 < 5`.
-/
theorem c8_protocol_yield_counterexample :
    resOk (execOp c8S (Op.withdrawProtocolFees 5 3 9)) = true ∧
    c8S.totalProtocolYield = 5 ∧
    (step c8S (Op.withdrawProtocolFees 5 3 9)).totalProtocolYield = 2 ∧
    ¬(5 : Nat) ≤ 2 := by
  exact ⟨rfl, rfl, rfl, by decide⟩

/--
**C9 (counterexample).** The read accessor and the mutating distribution path
do not compute the same amount from the same state: with `principalDeposited =
totalPrincipal = 1000`, `totalYieldShares = 100`, a matured plan (time factor
1) and a vault balance of 1050, `getAccumulatedYield` returns 100 (the plan's
full share count) while `_calculateAndDistributeYield` credits 50 (the share
count scaled by the vault's harvestable yield per share).
-/
theorem c9_yield_formula_counterexample :
    getAccumulatedYield c9S 3000 1 = .ok 100 ∧
    resOk (calculateAndDistributeYield c9S 3000 1) = true ∧
    retOf 0 (calculateAndDistributeYield c9S 3000 1) = 50 ∧
    (100 : Nat) ≠ 50 := by
  exact ⟨rfl, rfl, rfl, by decide⟩

/--
**C5 (amended).** Every successful `withdraw(planId, amount)` pays the plan
owner; the effective request is `amount`, or the full `accumulatedBalance +
yieldEarned` when `amount = 0`; before `endDate` the transferred amount is
exactly `requested - (requested * penaltyBps) / 10000` (the penalty is
floored, so the payout can exceed the claim's
`requested * (10000 - penaltyBps) / 10000` by up to one unit); at or after
`endDate` the transferred amount is exactly `requested`, with zero penalty.
-/
theorem c5_withdraw_payout_amended (s : State) (caller : Addr) (now planId amount : Nat)
    (h : resOk (withdraw s caller now planId amount) = true) :
    (retOf WOut.zero (withdraw s caller now planId amount)).recipient =
      (s.plans planId).owner ∧
    (retOf WOut.zero (withdraw s caller now planId amount)).requested =
      (if amount = 0 then
        (s.plans planId).accumulatedBalance + (s.plans planId).yieldEarned
       else amount) ∧
    ((retOf WOut.zero (withdraw s caller now planId amount)).isEarly = true ↔
      now < (s.plans planId).endDate) ∧
    (now < (s.plans planId).endDate →
      (retOf WOut.zero (withdraw s caller now planId amount)).amount =
        (retOf WOut.zero (withdraw s caller now planId amount)).requested -
          (retOf WOut.zero (withdraw s caller now planId amount)).requested *
            s.earlyWithdrawalPenalty / 10000 ∧
      (retOf WOut.zero (withdraw s caller now planId amount)).penalty =
        (retOf WOut.zero (withdraw s caller now planId amount)).requested *
          s.earlyWithdrawalPenalty / 10000) ∧
    ((s.plans planId).endDate ≤ now →
      (retOf WOut.zero (withdraw s caller now planId amount)).amount =
        (retOf WOut.zero (withdraw s caller now planId amount)).requested ∧
      (retOf WOut.zero (withdraw s caller now planId amount)).penalty = 0) := by
  obtain ⟨x, hr⟩ := resOk_iff_ok.mp h
  obtain ⟨s', out⟩ := x
  rw [hr]
  simp only [withdraw] at hr
  split at hr
  · exact absurd hr (by simp)
  split at hr
  · exact absurd hr (by simp)
  split at hr
  · exact absurd hr (by simp)
  split at hr
  · exact absurd hr (by simp)
  split at hr
  · exact absurd hr (by simp)
  · rename_i heq
    injection hr with hr2
    injection hr2 with h1 h2
    subst h2
    refine ⟨rfl, ?_, ?_, ?_, ?_⟩
    · simp [retOf, withdrawRequested]
    · simp [retOf]
    · intro hlt
      constructor
      · simp [retOf, withdrawPayout, withdrawPenalty, hlt]
      · simp [retOf, withdrawPenalty, hlt]
    · intro hge
      constructor
      · simp [retOf, withdrawPayout, withdrawPenalty, Nat.not_lt.mpr hge]
      · simp [retOf, withdrawPenalty, Nat.not_lt.mpr hge]

/-- Witness for C5: the amended payout law evaluated at the concrete early
withdrawal of 3 with a 33.33% penalty. -/
theorem c5_withdraw_payout_witness :
    (retOf WOut.zero (withdraw c5S 2 2000000 1 3)).recipient = (c5S.plans 1).owner ∧
    (retOf WOut.zero (withdraw c5S 2 2000000 1 3)).requested =
      (if (3 : Nat) = 0 then
        (c5S.plans 1).accumulatedBalance + (c5S.plans 1).yieldEarned
       else 3) ∧
    ((retOf WOut.zero (withdraw c5S 2 2000000 1 3)).isEarly = true ↔
      2000000 < (c5S.plans 1).endDate) ∧
    (2000000 < (c5S.plans 1).endDate →
      (retOf WOut.zero (withdraw c5S 2 2000000 1 3)).amount =
        (retOf WOut.zero (withdraw c5S 2 2000000 1 3)).requested -
          (retOf WOut.zero (withdraw c5S 2 2000000 1 3)).requested *
            c5S.earlyWithdrawalPenalty / 10000 ∧
      (retOf WOut.zero (withdraw c5S 2 2000000 1 3)).penalty =
        (retOf WOut.zero (withdraw c5S 2 2000000 1 3)).requested *
          c5S.earlyWithdrawalPenalty / 10000) ∧
    ((c5S.plans 1).endDate ≤ 2000000 →
      (retOf WOut.zero (withdraw c5S 2 2000000 1 3)).amount =
        (retOf WOut.zero (withdraw c5S 2 2000000 1 3)).requested ∧
      (retOf WOut.zero (withdraw c5S 2 2000000 1 3)).penalty = 0) :=
  c5_withdraw_payout_amended c5S 2 2000000 1 3 rfl

/--
**C6 (amended).** For an active, unmatured plan with `lastDeductionDate > 0`
(and an expected instant of at least one hour, ruling out the underflow
panic): `executeDeduction` reverts with `DeductionAlreadyExecuted` exactly
when the prior deduction ran within the last hour or on/after
`expectedDeductionDate - 1 hour`; it reverts with `InvalidParameter` exactly
when neither duplicate condition holds and the call is more than one hour
before the expected instant (when both apply, the duplicate check wins); and
any revert leaves the state unchanged.
-/
theorem c6_deduction_rejection_amended (s : State) (caller : Addr) (now planId : Nat)
    (hid : ¬(planId = 0 ∨ planId > s.totalPlans)) (hp : s.paused = false)
    (hact : (s.plans planId).isActive = true)
    (hcomp : (s.plans planId).isCompleted = false)
    (hmat : now < (s.plans planId).endDate)
    (hlast : (s.plans planId).lastDeductionDate > 0)
    (hexp : oneHour ≤
      (s.plans planId).startDate + (s.plans planId).successfulDeductions * oneDay) :
    (executeDeduction s caller now planId = .error .DeductionAlreadyExecuted ↔
      (now ≤ (s.plans planId).lastDeductionDate + oneHour ∨
        (s.plans planId).lastDeductionDate ≥
          (s.plans planId).startDate + (s.plans planId).successfulDeductions * oneDay -
            oneHour)) ∧
    (executeDeduction s caller now planId = .error .InvalidParameter ↔
      (¬(now ≤ (s.plans planId).lastDeductionDate + oneHour ∨
          (s.plans planId).lastDeductionDate ≥
            (s.plans planId).startDate + (s.plans planId).successfulDeductions * oneDay -
              oneHour) ∧
        now < (s.plans planId).startDate +
          (s.plans planId).successfulDeductions * oneDay - oneHour)) ∧
    (∀ e, executeDeduction s caller now planId = .error e →
      step s (Op.executeDeduction caller now planId) = s) := by
  have hstep : ∀ e, executeDeduction s caller now planId = .error e →
      step s (Op.executeDeduction caller now planId) = s := by
    intro e he
    simp [step, execOp, he, Except.map]
  have hiff : (executeDeduction s caller now planId = .error .DeductionAlreadyExecuted ↔
      (now ≤ (s.plans planId).lastDeductionDate + oneHour ∨
        (s.plans planId).lastDeductionDate ≥
          (s.plans planId).startDate + (s.plans planId).successfulDeductions * oneDay -
            oneHour)) ∧
      (executeDeduction s caller now planId = .error .InvalidParameter ↔
      (¬(now ≤ (s.plans planId).lastDeductionDate + oneHour ∨
          (s.plans planId).lastDeductionDate ≥
            (s.plans planId).startDate + (s.plans planId).successfulDeductions * oneDay -
              oneHour) ∧
        now < (s.plans planId).startDate +
          (s.plans planId).successfulDeductions * oneDay - oneHour)) := by
    by_cases hA : now ≤ (s.plans planId).lastDeductionDate + oneHour
    · have hres : executeDeduction s caller now planId =
          .error .DeductionAlreadyExecuted := by
        rw [executeDeduction.eq_def, if_neg hid, if_neg (by simp [hp]),
          if_neg (by simp [hact, hcomp]), if_neg (Nat.not_le.mpr hmat),
          if_pos ⟨hlast, hA⟩]
      rw [hres]
      exact ⟨by simp [hA], by simp [hA]⟩
    · by_cases hB : (s.plans planId).lastDeductionDate ≥
          (s.plans planId).startDate + (s.plans planId).successfulDeductions * oneDay -
            oneHour
      · have hres : executeDeduction s caller now planId =
            .error .DeductionAlreadyExecuted := by
          rw [executeDeduction.eq_def, if_neg hid, if_neg (by simp [hp]),
            if_neg (by simp [hact, hcomp]), if_neg (Nat.not_le.mpr hmat),
            if_neg (fun hand => hA hand.2), if_neg (Nat.not_lt.mpr hexp),
            if_pos ⟨hlast, hB⟩]
        rw [hres]
        exact ⟨by simp [hB], by simp [hB]⟩
      · by_cases hC : now <
            (s.plans planId).startDate + (s.plans planId).successfulDeductions * oneDay -
              oneHour
        · have hres : executeDeduction s caller now planId = .error .InvalidParameter := by
            rw [executeDeduction.eq_def, if_neg hid, if_neg (by simp [hp]),
              if_neg (by simp [hact, hcomp]), if_neg (Nat.not_le.mpr hmat),
              if_neg (fun hand => hA hand.2), if_neg (Nat.not_lt.mpr hexp),
              if_neg (fun hand => hB hand.2), if_pos hC]
          rw [hres]
          exact ⟨by simp [hA, hB], by simp [hA, hB, hC]⟩
        · have hres : ∃ t, executeDeduction s caller now planId = .ok t := by
            rw [executeDeduction.eq_def, if_neg hid, if_neg (by simp [hp]),
              if_neg (by simp [hact, hcomp]), if_neg (Nat.not_le.mpr hmat),
              if_neg (fun hand => hA hand.2), if_neg (Nat.not_lt.mpr hexp),
              if_neg (fun hand => hB hand.2), if_neg hC]
            split
            · exact ⟨_, rfl⟩
            · exact ⟨_, rfl⟩
          obtain ⟨t, hres⟩ := hres
          rw [hres]
          exact ⟨by simp [hA, hB], by simp [hC]⟩
  exact ⟨hiff.1, hiff.2, hstep⟩

/-- Witness for C6 at a concrete duplicate call (within one hour of the last
deduction and more than an hour before the expected instant): the call
reverts `DeductionAlreadyExecuted` and the state is unchanged. -/
theorem c6_deduction_rejection_witness :
    (executeDeduction c6S 6 1000500 1 = .error .DeductionAlreadyExecuted ↔
      (1000500 ≤ (c6S.plans 1).lastDeductionDate + oneHour ∨
        (c6S.plans 1).lastDeductionDate ≥
          (c6S.plans 1).startDate + (c6S.plans 1).successfulDeductions * oneDay -
            oneHour)) ∧
    (executeDeduction c6S 6 1000500 1 = .error .InvalidParameter ↔
      (¬(1000500 ≤ (c6S.plans 1).lastDeductionDate + oneHour ∨
          (c6S.plans 1).lastDeductionDate ≥
            (c6S.plans 1).startDate + (c6S.plans 1).successfulDeductions * oneDay -
              oneHour) ∧
        1000500 < (c6S.plans 1).startDate +
          (c6S.plans 1).successfulDeductions * oneDay - oneHour)) ∧
    step c6S (Op.executeDeduction 6 1000500 1) = c6S := by
  have h := c6_deduction_rejection_amended c6S 6 1000500 1 (by decide) rfl rfl rfl
    (by decide) (by decide) (by decide)
  exact ⟨h.1, h.2.1, h.2.2 .DeductionAlreadyExecuted rfl⟩

/--
**C7 (amended).** When `executeDeduction` reaches the funding check and finds
the owner's balance or allowance below `dailyAmount`, the call succeeds with a
missed deduction: only `missedDeductions` is incremented —
`successfulDeductions`, `accumulatedBalance`, `lastDeductionDate` and the
global counters are unchanged — and therefore the next scheduled slot
`startDate + successfulDeductions * 1 day` stays exactly the slot just
processed; it does not advance by one day (the cursor advances only on a
successful deduction).
-/
theorem c7_missed_deduction_amended (s : State) (caller : Addr) (now planId : Nat)
    (hid : ¬(planId = 0 ∨ planId > s.totalPlans)) (hp : s.paused = false)
    (hact : (s.plans planId).isActive = true)
    (hcomp : (s.plans planId).isCompleted = false)
    (hmat : now < (s.plans planId).endDate)
    (h1 : ¬((s.plans planId).lastDeductionDate > 0 ∧
      now ≤ (s.plans planId).lastDeductionDate + oneHour))
    (hexp : oneHour ≤
      (s.plans planId).startDate + (s.plans planId).successfulDeductions * oneDay)
    (h2 : ¬((s.plans planId).lastDeductionDate > 0 ∧
      (s.plans planId).lastDeductionDate ≥
        (s.plans planId).startDate + (s.plans planId).successfulDeductions * oneDay -
          oneHour))
    (h3 : ¬(now < (s.plans planId).startDate +
      (s.plans planId).successfulDeductions * oneDay - oneHour))
    (hfunds : s.balances (s.plans planId).owner < (s.plans planId).dailyAmount ∨
      s.allowances (s.plans planId).owner < (s.plans planId).dailyAmount) :
    executeDeduction s caller now planId =
      .ok (setPlan s planId
            { s.plans planId with
              missedDeductions := (s.plans planId).missedDeductions + 1 },
          .missed) ∧
    ((postState s (executeDeduction s caller now planId)).plans planId).missedDeductions =
      (s.plans planId).missedDeductions + 1 ∧
    ((postState s (executeDeduction s caller now planId)).plans planId).successfulDeductions =
      (s.plans planId).successfulDeductions ∧
    ((postState s (executeDeduction s caller now planId)).plans planId).accumulatedBalance =
      (s.plans planId).accumulatedBalance ∧
    ((postState s (executeDeduction s caller now planId)).plans planId).lastDeductionDate =
      (s.plans planId).lastDeductionDate ∧
    (postState s (executeDeduction s caller now planId)).totalPrincipal = s.totalPrincipal ∧
    ((postState s (executeDeduction s caller now planId)).plans planId).startDate +
        ((postState s (executeDeduction s caller now planId)).plans planId).successfulDeductions *
          oneDay =
      (s.plans planId).startDate + (s.plans planId).successfulDeductions * oneDay := by
  have key : executeDeduction s caller now planId =
      .ok (setPlan s planId
            { s.plans planId with
              missedDeductions := (s.plans planId).missedDeductions + 1 },
          .missed) := by
    rw [executeDeduction.eq_def, if_neg hid, if_neg (by simp [hp]),
      if_neg (by simp [hact, hcomp]), if_neg (Nat.not_le.mpr hmat), if_neg h1,
      if_neg (Nat.not_lt.mpr hexp), if_neg h2, if_neg h3, if_pos hfunds]
  rw [key]
  refine ⟨rfl, ?_, ?_, ?_, ?_, ?_, ?_⟩ <;> simp [postState, setPlan]

/-- Witness for C7 at the concrete missed day-5 deduction (owner balance 0). -/
theorem c7_missed_deduction_witness :
    executeDeduction c7S 6 1432000 1 =
      .ok (setPlan c7S 1
            { c7S.plans 1 with
              missedDeductions := (c7S.plans 1).missedDeductions + 1 },
          .missed) ∧
    ((postState c7S (executeDeduction c7S 6 1432000 1)).plans 1).missedDeductions =
      (c7S.plans 1).missedDeductions + 1 ∧
    ((postState c7S (executeDeduction c7S 6 1432000 1)).plans 1).successfulDeductions =
      (c7S.plans 1).successfulDeductions ∧
    ((postState c7S (executeDeduction c7S 6 1432000 1)).plans 1).accumulatedBalance =
      (c7S.plans 1).accumulatedBalance ∧
    ((postState c7S (executeDeduction c7S 6 1432000 1)).plans 1).lastDeductionDate =
      (c7S.plans 1).lastDeductionDate ∧
    (postState c7S (executeDeduction c7S 6 1432000 1)).totalPrincipal = c7S.totalPrincipal ∧
    ((postState c7S (executeDeduction c7S 6 1432000 1)).plans 1).startDate +
        ((postState c7S (executeDeduction c7S 6 1432000 1)).plans 1).successfulDeductions *
          oneDay =
      (c7S.plans 1).startDate + (c7S.plans 1).successfulDeductions * oneDay :=
  c7_missed_deduction_amended c7S 6 1432000 1 (by decide) rfl rfl rfl (by decide)
    (by decide) (by decide) (by decide) (by decide) (by decide)

/--
**C3.** Every successful `executeEmergencyWithdrawal` pays the request's
recorded `user` (the plan owner validated at scheduling time) — never the
initiating admin or the caller, whenever those are distinct addresses; the
payout is the request's amount (0 meaning the full balance), clamped to the
plan's `accumulatedBalance + yieldEarned`; the plan is debited principal-first
then yield and is marked completed.
-/
theorem c3_emergency_payout_to_recorded_user (s : State) (caller : Addr) (now : Nat)
    (wid : WId) (h : resOk (executeEmergencyWithdrawal s caller now wid) = true) :
    (retOf EWOut.zero (executeEmergencyWithdrawal s caller now wid)).recipient =
      (s.emergencyWithdrawals wid).user ∧
    (retOf EWOut.zero (executeEmergencyWithdrawal s caller now wid)).amount =
      min
        (if (s.emergencyWithdrawals wid).amount = 0 then
          (s.plans (s.emergencyWithdrawals wid).planId).accumulatedBalance +
            (s.plans (s.emergencyWithdrawals wid).planId).yieldEarned
         else (s.emergencyWithdrawals wid).amount)
        ((s.plans (s.emergencyWithdrawals wid).planId).accumulatedBalance +
          (s.plans (s.emergencyWithdrawals wid).planId).yieldEarned) ∧
    ((postState s (executeEmergencyWithdrawal s caller now wid)).plans
        (s.emergencyWithdrawals wid).planId).isActive = false ∧
    ((postState s (executeEmergencyWithdrawal s caller now wid)).plans
        (s.emergencyWithdrawals wid).planId).isCompleted = true ∧
    ((postState s (executeEmergencyWithdrawal s caller now wid)).plans
        (s.emergencyWithdrawals wid).planId).accumulatedBalance =
      (s.plans (s.emergencyWithdrawals wid).planId).accumulatedBalance -
        (retOf EWOut.zero (executeEmergencyWithdrawal s caller now wid)).amount ∧
    ((postState s (executeEmergencyWithdrawal s caller now wid)).plans
        (s.emergencyWithdrawals wid).planId).yieldEarned =
      (s.plans (s.emergencyWithdrawals wid).planId).yieldEarned -
        ((retOf EWOut.zero (executeEmergencyWithdrawal s caller now wid)).amount -
          (s.plans (s.emergencyWithdrawals wid).planId).accumulatedBalance) ∧
    ((postState s (executeEmergencyWithdrawal s caller now wid)).emergencyWithdrawals
        wid).executed = true ∧
    ((s.emergencyWithdrawals wid).admin ≠ (s.emergencyWithdrawals wid).user →
      (retOf EWOut.zero (executeEmergencyWithdrawal s caller now wid)).recipient ≠
        (s.emergencyWithdrawals wid).admin) ∧
    (caller ≠ (s.emergencyWithdrawals wid).user →
      (retOf EWOut.zero (executeEmergencyWithdrawal s caller now wid)).recipient ≠
        caller) := by
  obtain ⟨x, hr⟩ := resOk_iff_ok.mp h
  obtain ⟨s', out⟩ := x
  rw [hr]
  simp only [executeEmergencyWithdrawal] at hr
  split at hr
  · exact absurd hr (by simp)
  split at hr
  · exact absurd hr (by simp)
  split at hr
  · exact absurd hr (by simp)
  split at hr
  · exact absurd hr (by simp)
  split at hr
  · exact absurd hr (by simp)
  split at hr
  · exact absurd hr (by simp)
  split at hr
  · exact absurd hr (by simp)
  · rename_i s3 heq
    injection hr with hr2
    injection hr2 with h1 h2
    subst h2
    subst h1
    have hc := transferTok_eqCore heq
    have hplans : s3.plans (s.emergencyWithdrawals wid).planId =
        ewPlanAfter (s.plans (s.emergencyWithdrawals wid).planId)
          (ewClamp (s.emergencyWithdrawals wid)
            (s.plans (s.emergencyWithdrawals wid).planId)) := by
      rw [← hc.plansEq]
      exact setPlan_plans_self _ _ _
    have hews : s3.emergencyWithdrawals wid =
        { s.emergencyWithdrawals wid with executed := true } := by
      rw [← hc.ewsEq]
      simp [setEW]
    refine ⟨rfl, ?_, ?_, ?_, ?_, ?_, ?_, ?_, ?_⟩
    · simp only [retOf]
      exact ewClamp_eq_min _ _
    · simp only [postState, hplans]
      exact ewPlanAfter_isActive _ _
    · simp only [postState, hplans]
      exact ewPlanAfter_isCompleted _ _
    · simp only [postState, retOf, hplans]
      exact ewPlanAfter_acc _ _
    · simp only [postState, retOf, hplans]
      exact ewPlanAfter_yield _ _
    · simp only [postState, hews]
    · intro hne
      simp only [retOf]
      exact hne.symm
    · intro hne
      simp only [retOf]
      exact fun hu => hne hu.symm

/-- Witness for C3 at a concrete ready request: paused state, emergency admin
7 executing the pending full-balance request for plan 1 at a time past its
`executionTime`. -/
theorem c3_emergency_payout_witness :
    (retOf EWOut.zero (executeEmergencyWithdrawal c3S 7 200000 c2Wid)).recipient =
      (c3S.emergencyWithdrawals c2Wid).user ∧
    (retOf EWOut.zero (executeEmergencyWithdrawal c3S 7 200000 c2Wid)).amount =
      min
        (if (c3S.emergencyWithdrawals c2Wid).amount = 0 then
          (c3S.plans (c3S.emergencyWithdrawals c2Wid).planId).accumulatedBalance +
            (c3S.plans (c3S.emergencyWithdrawals c2Wid).planId).yieldEarned
         else (c3S.emergencyWithdrawals c2Wid).amount)
        ((c3S.plans (c3S.emergencyWithdrawals c2Wid).planId).accumulatedBalance +
          (c3S.plans (c3S.emergencyWithdrawals c2Wid).planId).yieldEarned) ∧
    ((postState c3S (executeEmergencyWithdrawal c3S 7 200000 c2Wid)).plans
        (c3S.emergencyWithdrawals c2Wid).planId).isActive = false ∧
    ((postState c3S (executeEmergencyWithdrawal c3S 7 200000 c2Wid)).plans
        (c3S.emergencyWithdrawals c2Wid).planId).isCompleted = true ∧
    ((postState c3S (executeEmergencyWithdrawal c3S 7 200000 c2Wid)).plans
        (c3S.emergencyWithdrawals c2Wid).planId).accumulatedBalance =
      (c3S.plans (c3S.emergencyWithdrawals c2Wid).planId).accumulatedBalance -
        (retOf EWOut.zero (executeEmergencyWithdrawal c3S 7 200000 c2Wid)).amount ∧
    ((postState c3S (executeEmergencyWithdrawal c3S 7 200000 c2Wid)).plans
        (c3S.emergencyWithdrawals c2Wid).planId).yieldEarned =
      (c3S.plans (c3S.emergencyWithdrawals c2Wid).planId).yieldEarned -
        ((retOf EWOut.zero (executeEmergencyWithdrawal c3S 7 200000 c2Wid)).amount -
          (c3S.plans (c3S.emergencyWithdrawals c2Wid).planId).accumulatedBalance) ∧
    ((postState c3S (executeEmergencyWithdrawal c3S 7 200000 c2Wid)).emergencyWithdrawals
        c2Wid).executed = true ∧
    ((c3S.emergencyWithdrawals c2Wid).admin ≠ (c3S.emergencyWithdrawals c2Wid).user →
      (retOf EWOut.zero (executeEmergencyWithdrawal c3S 7 200000 c2Wid)).recipient ≠
        (c3S.emergencyWithdrawals c2Wid).admin) ∧
    ((7 : Addr) ≠ (c3S.emergencyWithdrawals c2Wid).user →
      (retOf EWOut.zero (executeEmergencyWithdrawal c3S 7 200000 c2Wid)).recipient ≠ 7) :=
  c3_emergency_payout_to_recorded_user c3S 7 200000 c2Wid rfl

theorem withdrawPlanAfter_frame (plan : Plan) (req : Nat) :
    (withdrawPlanAfter plan req).owner = plan.owner ∧
    (withdrawPlanAfter plan req).dailyAmount = plan.dailyAmount ∧
    (withdrawPlanAfter plan req).startDate = plan.startDate ∧
    (withdrawPlanAfter plan req).endDate = plan.endDate ∧
    (withdrawPlanAfter plan req).totalTarget = plan.totalTarget ∧
    (withdrawPlanAfter plan req).principalDeposited = plan.principalDeposited ∧
    (withdrawPlanAfter plan req).lastDeductionDate = plan.lastDeductionDate ∧
    (withdrawPlanAfter plan req).successfulDeductions = plan.successfulDeductions ∧
    (withdrawPlanAfter plan req).missedDeductions = plan.missedDeductions ∧
    (withdrawPlanAfter plan req).duration = plan.duration := by
  unfold withdrawPlanAfter
  dsimp only
  refine ⟨?_, ?_, ?_, ?_, ?_, ?_, ?_, ?_, ?_, ?_⟩ <;> (split <;> split <;> rfl)

/--
**C10.** Every successful `withdraw(planId, amount)` leaves the global
counters `totalPlans`, `totalPrincipal`, `totalUserYield`,
`totalProtocolYield`, the plan index `userPlans`, the emergency-withdrawal
requests, and every other plan's record unchanged, and mutates only the
targeted plan's `accumulatedBalance`, `yieldEarned`, `isActive` and
`isCompleted` fields (token balances and the yield-share bookkeeping aside):
all its other fields are preserved.
-/
theorem c10_withdraw_frame (s : State) (caller : Addr) (now planId amount : Nat)
    (h : resOk (withdraw s caller now planId amount) = true) :
    (postState s (withdraw s caller now planId amount)).totalPlans = s.totalPlans ∧
    (postState s (withdraw s caller now planId amount)).totalPrincipal = s.totalPrincipal ∧
    (postState s (withdraw s caller now planId amount)).totalUserYield = s.totalUserYield ∧
    (postState s (withdraw s caller now planId amount)).totalProtocolYield =
      s.totalProtocolYield ∧
    (postState s (withdraw s caller now planId amount)).userPlans = s.userPlans ∧
    (postState s (withdraw s caller now planId amount)).emergencyWithdrawals =
      s.emergencyWithdrawals ∧
    (∀ pid, pid ≠ planId →
      (postState s (withdraw s caller now planId amount)).plans pid = s.plans pid) ∧
    ((postState s (withdraw s caller now planId amount)).plans planId).owner =
      (s.plans planId).owner ∧
    ((postState s (withdraw s caller now planId amount)).plans planId).dailyAmount =
      (s.plans planId).dailyAmount ∧
    ((postState s (withdraw s caller now planId amount)).plans planId).startDate =
      (s.plans planId).startDate ∧
    ((postState s (withdraw s caller now planId amount)).plans planId).endDate =
      (s.plans planId).endDate ∧
    ((postState s (withdraw s caller now planId amount)).plans planId).totalTarget =
      (s.plans planId).totalTarget ∧
    ((postState s (withdraw s caller now planId amount)).plans planId).principalDeposited =
      (s.plans planId).principalDeposited ∧
    ((postState s (withdraw s caller now planId amount)).plans planId).lastDeductionDate =
      (s.plans planId).lastDeductionDate ∧
    ((postState s (withdraw s caller now planId amount)).plans planId).successfulDeductions =
      (s.plans planId).successfulDeductions ∧
    ((postState s (withdraw s caller now planId amount)).plans planId).missedDeductions =
      (s.plans planId).missedDeductions ∧
    ((postState s (withdraw s caller now planId amount)).plans planId).duration =
      (s.plans planId).duration := by
  obtain ⟨x, hr⟩ := resOk_iff_ok.mp h
  obtain ⟨s', out⟩ := x
  rw [hr]
  simp only [withdraw] at hr
  split at hr
  · exact absurd hr (by simp)
  split at hr
  · exact absurd hr (by simp)
  split at hr
  · exact absurd hr (by simp)
  split at hr
  · exact absurd hr (by simp)
  split at hr
  · exact absurd hr (by simp)
  · rename_i s3 heq
    injection hr with hr2
    injection hr2 with h1 h2
    subst h2
    subst h1
    have hc : EqCore (setPlan s planId
        (withdrawPlanAfter (s.plans planId) (withdrawRequested (s.plans planId) amount)))
        s3 :=
      EqCore.transEq (pullLiquidity_eqCore _ _) (transferTok_eqCore heq)
    have hself : s3.plans planId =
        withdrawPlanAfter (s.plans planId) (withdrawRequested (s.plans planId) amount) := by
      rw [← hc.plansEq]
      exact setPlan_plans_self _ _ _
    have hf := withdrawPlanAfter_frame (s.plans planId)
      (withdrawRequested (s.plans planId) amount)
    refine ⟨?_, ?_, ?_, ?_, ?_, ?_, ?_, ?_, ?_, ?_, ?_, ?_, ?_, ?_, ?_, ?_, ?_⟩
    · exact (hc.totalPlansEq).symm ▸ rfl
    · exact (hc.totalPrincipalEq).symm ▸ rfl
    · exact (hc.totalUserYieldEq).symm ▸ rfl
    · exact (hc.totalProtocolYieldEq).symm ▸ rfl
    · exact (hc.userPlansEq).symm ▸ rfl
    · exact (hc.ewsEq).symm ▸ rfl
    · intro pid hpid
      simp only [postState]
      rw [← hc.plansEq]
      exact setPlan_plans_other s planId pid _ hpid
    · simp only [postState, hself]
      exact hf.1
    · simp only [postState, hself]
      exact hf.2.1
    · simp only [postState, hself]
      exact hf.2.2.1
    · simp only [postState, hself]
      exact hf.2.2.2.1
    · simp only [postState, hself]
      exact hf.2.2.2.2.1
    · simp only [postState, hself]
      exact hf.2.2.2.2.2.1
    · simp only [postState, hself]
      exact hf.2.2.2.2.2.2.1
    · simp only [postState, hself]
      exact hf.2.2.2.2.2.2.2.1
    · simp only [postState, hself]
      exact hf.2.2.2.2.2.2.2.2.1
    · simp only [postState, hself]
      exact hf.2.2.2.2.2.2.2.2.2

/-- Witness for C10 at the concrete mature full withdrawal of plan 1 (with
the other-plan frame instantiated at plan id 2). -/
theorem c10_withdraw_frame_witness :
    (postState c1S (withdraw c1S 2 3592000 1 0)).totalPlans = c1S.totalPlans ∧
    (postState c1S (withdraw c1S 2 3592000 1 0)).totalPrincipal = c1S.totalPrincipal ∧
    (postState c1S (withdraw c1S 2 3592000 1 0)).totalUserYield = c1S.totalUserYield ∧
    (postState c1S (withdraw c1S 2 3592000 1 0)).totalProtocolYield =
      c1S.totalProtocolYield ∧
    (postState c1S (withdraw c1S 2 3592000 1 0)).userPlans = c1S.userPlans ∧
    (postState c1S (withdraw c1S 2 3592000 1 0)).emergencyWithdrawals =
      c1S.emergencyWithdrawals ∧
    (postState c1S (withdraw c1S 2 3592000 1 0)).plans 2 = c1S.plans 2 ∧
    ((postState c1S (withdraw c1S 2 3592000 1 0)).plans 1).owner = (c1S.plans 1).owner ∧
    ((postState c1S (withdraw c1S 2 3592000 1 0)).plans 1).dailyAmount =
      (c1S.plans 1).dailyAmount ∧
    ((postState c1S (withdraw c1S 2 3592000 1 0)).plans 1).startDate =
      (c1S.plans 1).startDate ∧
    ((postState c1S (withdraw c1S 2 3592000 1 0)).plans 1).endDate =
      (c1S.plans 1).endDate ∧
    ((postState c1S (withdraw c1S 2 3592000 1 0)).plans 1).totalTarget =
      (c1S.plans 1).totalTarget ∧
    ((postState c1S (withdraw c1S 2 3592000 1 0)).plans 1).principalDeposited =
      (c1S.plans 1).principalDeposited ∧
    ((postState c1S (withdraw c1S 2 3592000 1 0)).plans 1).lastDeductionDate =
      (c1S.plans 1).lastDeductionDate ∧
    ((postState c1S (withdraw c1S 2 3592000 1 0)).plans 1).successfulDeductions =
      (c1S.plans 1).successfulDeductions ∧
    ((postState c1S (withdraw c1S 2 3592000 1 0)).plans 1).missedDeductions =
      (c1S.plans 1).missedDeductions ∧
    ((postState c1S (withdraw c1S 2 3592000 1 0)).plans 1).duration =
      (c1S.plans 1).duration := by
  have h := c10_withdraw_frame c1S 2 3592000 1 0 rfl
  exact ⟨h.1, h.2.1, h.2.2.1, h.2.2.2.1, h.2.2.2.2.1, h.2.2.2.2.2.1,
    h.2.2.2.2.2.2.1 2 (by decide), h.2.2.2.2.2.2.2.1, h.2.2.2.2.2.2.2.2.1,
    h.2.2.2.2.2.2.2.2.2.1, h.2.2.2.2.2.2.2.2.2.2.1, h.2.2.2.2.2.2.2.2.2.2.2.1,
    h.2.2.2.2.2.2.2.2.2.2.2.2.1, h.2.2.2.2.2.2.2.2.2.2.2.2.2.1,
    h.2.2.2.2.2.2.2.2.2.2.2.2.2.2.1, h.2.2.2.2.2.2.2.2.2.2.2.2.2.2.2.1,
    h.2.2.2.2.2.2.2.2.2.2.2.2.2.2.2.2⟩

/--
**C2 (amended).** `scheduleEmergencyWithdrawal` and
`executeEmergencyWithdrawal` revert in every unpaused state, and
`executeDeduction` reverts in every paused state.  (The other half of the
original claim is false: `cancelEmergencyWithdrawal` carries no pause check
and can succeed while unpaused, and `withdraw` carries no pause check and can
succeed while paused — see the counterexample.)
-/
theorem c2_pause_gating_amended (s : State) (caller user : Addr)
    (now planId amount reasonHash : Nat) (wid : WId) :
    (s.paused = false →
      resOk (scheduleEmergencyWithdrawal s caller user now planId amount reasonHash) =
        false) ∧
    (s.paused = false → resOk (executeEmergencyWithdrawal s caller now wid) = false) ∧
    (s.paused = true → resOk (executeDeduction s caller now planId) = false) := by
  refine ⟨?_, ?_, ?_⟩
  · intro hp
    unfold scheduleEmergencyWithdrawal
    split
    · rfl
    · rw [if_pos (by simp [hp])]
      rfl
  · intro hp
    unfold executeEmergencyWithdrawal
    split
    · rfl
    · rw [if_pos (by simp [hp])]
      rfl
  · intro hp
    unfold executeDeduction
    split
    · rfl
    · rfl

/-- Witness for C2: the amended pause gating evaluated at the concrete
unpaused state (schedule/execute revert) and the concrete paused state
(deduction reverts). -/
theorem c2_pause_gating_witness :
    resOk (scheduleEmergencyWithdrawal c2aS 7 2 6000 1 0 9) = false ∧
    resOk (executeEmergencyWithdrawal c2aS 7 200000 c2Wid) = false ∧
    resOk (executeDeduction c2bS 6 1086400 1) = false := by
  have h1 := c2_pause_gating_amended c2aS 7 2 6000 1 0 9 c2Wid
  have h2 := c2_pause_gating_amended c2bS 6 2 1086400 1 0 9 c2Wid
  exact ⟨h1.1 rfl, h1.2.1 rfl, h2.2.2 rfl⟩

theorem Mono4.rfl (s : State) : Mono4 s s :=
  ⟨le_refl _, le_refl _, le_refl _, le_refl _⟩

theorem Mono4.transLe {s t u : State} (h1 : Mono4 s t) (h2 : Mono4 t u) : Mono4 s u :=
  ⟨h1.plansLe.trans h2.plansLe, h1.principalLe.trans h2.principalLe,
    h1.userYieldLe.trans h2.userYieldLe, h1.protocolYieldLe.trans h2.protocolYieldLe⟩

theorem Mono4.ofEqCore {s t : State} (h : EqCore s t) : Mono4 s t :=
  ⟨h.totalPlansEq.le, h.totalPrincipalEq.le, h.totalUserYieldEq.le,
    h.totalProtocolYieldEq.le⟩

theorem resOk_false_iff {α : Type} {r : Except Err α} :
    resOk r = false ↔ ∃ e, r = .error e := by
  cases r <;> simp [resOk]

theorem step_of_ok {s s' : State} {op : Op} (h : execOp s op = .ok s') :
    step s op = s' := by
  simp [step, h]

theorem step_of_error {s : State} {op : Op} {e : Err} (h : execOp s op = .error e) :
    step s op = s := by
  simp [step, h]

theorem pause_mono_ews {s s' : State} {c : Addr} (h : pause s c = .ok s') :
    Mono4 s s' ∧ s'.emergencyWithdrawals = s.emergencyWithdrawals := by
  unfold pause at h
  split at h
  · exact absurd h (by simp)
  split at h
  · exact absurd h (by simp)
  · injection h with h1
    subst h1
    exact ⟨⟨le_refl _, le_refl _, le_refl _, le_refl _⟩, rfl⟩

theorem unpause_mono_ews {s s' : State} {c : Addr} (h : unpause s c = .ok s') :
    Mono4 s s' ∧ s'.emergencyWithdrawals = s.emergencyWithdrawals := by
  unfold unpause at h
  split at h
  · exact absurd h (by simp)
  split at h
  · exact absurd h (by simp)
  · injection h with h1
    subst h1
    exact ⟨⟨le_refl _, le_refl _, le_refl _, le_refl _⟩, rfl⟩

theorem setYieldProtocol_mono_ews {s s' : State} {c : Addr} {yp : Option YieldSrc}
    (h : setYieldProtocol s c yp = .ok s') :
    Mono4 s s' ∧ s'.emergencyWithdrawals = s.emergencyWithdrawals := by
  unfold setYieldProtocol at h
  split at h
  · exact absurd h (by simp)
  · split at h
    · injection h with h1
      subst h1
      exact ⟨⟨le_refl _, le_refl _, le_refl _, le_refl _⟩, rfl⟩
    · split at h
      · exact absurd h (by simp)
      · injection h with h1
        subst h1
        exact ⟨⟨le_refl _, le_refl _, le_refl _, le_refl _⟩, rfl⟩

theorem setEarlyWithdrawalPenalty_mono_ews {s s' : State} {c : Addr} {p : Nat}
    (h : setEarlyWithdrawalPenalty s c p = .ok s') :
    Mono4 s s' ∧ s'.emergencyWithdrawals = s.emergencyWithdrawals := by
  unfold setEarlyWithdrawalPenalty at h
  split at h
  · exact absurd h (by simp)
  split at h
  · exact absurd h (by simp)
  · injection h with h1
    subst h1
    exact ⟨⟨le_refl _, le_refl _, le_refl _, le_refl _⟩, rfl⟩

theorem setDailyDeductionLimits_mono_ews {s s' : State} {c : Addr} {lo hi : Nat}
    (h : setDailyDeductionLimits s c lo hi = .ok s') :
    Mono4 s s' ∧ s'.emergencyWithdrawals = s.emergencyWithdrawals := by
  unfold setDailyDeductionLimits at h
  split at h
  · exact absurd h (by simp)
  split at h
  · exact absurd h (by simp)
  · injection h with h1
    subst h1
    exact ⟨⟨le_refl _, le_refl _, le_refl _, le_refl _⟩, rfl⟩

theorem setYieldDistribution_mono_ews {s s' : State} {c : Addr} {u f : Nat}
    (h : setYieldDistribution s c u f = .ok s') :
    Mono4 s s' ∧ s'.emergencyWithdrawals = s.emergencyWithdrawals := by
  unfold setYieldDistribution at h
  split at h
  · exact absurd h (by simp)
  split at h
  · exact absurd h (by simp)
  · injection h with h1
    subst h1
    exact ⟨⟨le_refl _, le_refl _, le_refl _, le_refl _⟩, rfl⟩

theorem setMinYieldDepositThreshold_mono_ews {s s' : State} {c : Addr} {t : Nat}
    (h : setMinYieldDepositThreshold s c t = .ok s') :
    Mono4 s s' ∧ s'.emergencyWithdrawals = s.emergencyWithdrawals := by
  unfold setMinYieldDepositThreshold at h
  split at h
  · exact absurd h (by simp)
  · injection h with h1
    subst h1
    exact ⟨⟨le_refl _, le_refl _, le_refl _, le_refl _⟩, rfl⟩

theorem setEmergencyWithdrawalDelay_mono_ews {s s' : State} {c : Addr} {d : Nat}
    (h : setEmergencyWithdrawalDelay s c d = .ok s') :
    Mono4 s s' ∧ s'.emergencyWithdrawals = s.emergencyWithdrawals := by
  unfold setEmergencyWithdrawalDelay at h
  split at h
  · exact absurd h (by simp)
  · injection h with h1
    subst h1
    exact ⟨⟨le_refl _, le_refl _, le_refl _, le_refl _⟩, rfl⟩

theorem grantRole_mono_ews {s s' : State} {c w : Addr} {r : Nat}
    (h : grantRole s c r w = .ok s') :
    Mono4 s s' ∧ s'.emergencyWithdrawals = s.emergencyWithdrawals := by
  unfold grantRole at h
  split at h
  · exact absurd h (by simp)
  split at h
  · injection h with h1
    subst h1
    exact ⟨⟨le_refl _, le_refl _, le_refl _, le_refl _⟩, rfl⟩
  split at h
  · injection h with h1
    subst h1
    exact ⟨⟨le_refl _, le_refl _, le_refl _, le_refl _⟩, rfl⟩
  · injection h with h1
    subst h1
    exact ⟨⟨le_refl _, le_refl _, le_refl _, le_refl _⟩, rfl⟩

theorem revokeRole_mono_ews {s s' : State} {c w : Addr} {r : Nat}
    (h : revokeRole s c r w = .ok s') :
    Mono4 s s' ∧ s'.emergencyWithdrawals = s.emergencyWithdrawals := by
  unfold revokeRole at h
  split at h
  · exact absurd h (by simp)
  split at h
  · injection h with h1
    subst h1
    exact ⟨⟨le_refl _, le_refl _, le_refl _, le_refl _⟩, rfl⟩
  split at h
  · injection h with h1
    subst h1
    exact ⟨⟨le_refl _, le_refl _, le_refl _, le_refl _⟩, rfl⟩
  · injection h with h1
    subst h1
    exact ⟨⟨le_refl _, le_refl _, le_refl _, le_refl _⟩, rfl⟩

theorem emergencyExitYield_mono_ews {s s' : State} {c : Addr}
    (h : emergencyExitYield s c = .ok s') :
    Mono4 s s' ∧ s'.emergencyWithdrawals = s.emergencyWithdrawals := by
  unfold emergencyExitYield at h
  split at h
  · exact absurd h (by simp)
  · split at h
    · injection h with h1
      subst h1
      exact ⟨⟨le_refl _, le_refl _, le_refl _, le_refl _⟩, rfl⟩
    · split at h
      · exact absurd h (by simp)
      · injection h with h1
        subst h1
        exact ⟨⟨le_refl _, le_refl _, le_refl _, le_refl _⟩, rfl⟩

theorem dedApply_mono_ews (s : State) (now pid : Nat) :
    Mono4 s (dedApply s now pid) ∧
    (dedApply s now pid).emergencyWithdrawals = s.emergencyWithdrawals :=
  ⟨⟨le_refl _, Nat.le_add_right _ _, le_refl _, le_refl _⟩, rfl⟩

theorem dedSweep_eqCore (s : State) : EqCore s (dedSweep s) := by
  unfold dedSweep
  split
  · exact EqCore.refl s
  · split
    · exact depositToYield_eqCore s _
    · exact EqCore.refl s

theorem harvestYield_mono_ews {s s' : State} {c : Addr} {now : Nat}
    (h : harvestYield s c now = .ok s') :
    Mono4 s s' ∧ s'.emergencyWithdrawals = s.emergencyWithdrawals := by
  unfold harvestYield at h
  split at h
  · exact absurd h (by simp)
  · split at h
    · injection h with h1
      subst h1
      exact ⟨⟨le_refl _, le_refl _, le_refl _, le_refl _⟩, rfl⟩
    · split at h
      · exact absurd h (by simp)
      split at h
      · injection h with h1
        subst h1
        exact ⟨⟨le_refl _, le_refl _, le_refl _, le_refl _⟩, rfl⟩
      split at h
      · injection h with h1
        subst h1
        exact ⟨⟨le_refl _, le_refl _, le_refl _, le_refl _⟩, rfl⟩
      · rename_i yp hyp h1 h2 h3
        injection h with h1
        subst h1
        have hc := withdrawFromYield_eqCore s (yp.assets - s.totalPrincipal)
        exact ⟨⟨hc.totalPlansEq.le, hc.totalPrincipalEq.le,
          hc.totalUserYieldEq.le.trans (Nat.le_add_right _ _),
          hc.totalProtocolYieldEq.le.trans (Nat.le_add_right _ _)⟩, hc.ewsEq.symm⟩

theorem createPlan_mono_ews {s s' : State} {c : Addr} {now amt dur pid : Nat}
    (h : createPlan s c now amt dur = .ok (s', pid)) :
    Mono4 s s' ∧ s'.emergencyWithdrawals = s.emergencyWithdrawals := by
  unfold createPlan at h
  split at h
  · exact absurd h (by simp)
  split at h
  · exact absurd h (by simp)
  split at h
  · exact absurd h (by simp)
  · injection h with h1
    injection h1 with h2 h3
    subst h2
    exact ⟨⟨Nat.le_succ _, le_refl _, le_refl _, le_refl _⟩, rfl⟩

theorem executeDeduction_mono_ews {s s' : State} {c : Addr} {now pid : Nat}
    {o : DedOutcome} (h : executeDeduction s c now pid = .ok (s', o)) :
    Mono4 s s' ∧ s'.emergencyWithdrawals = s.emergencyWithdrawals := by
  unfold executeDeduction at h
  split at h
  · exact absurd h (by simp)
  split at h
  · exact absurd h (by simp)
  split at h
  · exact absurd h (by simp)
  split at h
  · injection h with h1
    injection h1 with h2 h3
    subst h2
    exact ⟨⟨le_refl _, le_refl _, le_refl _, le_refl _⟩, rfl⟩
  split at h
  · exact absurd h (by simp)
  split at h
  · exact absurd h (by simp)
  split at h
  · exact absurd h (by simp)
  split at h
  · exact absurd h (by simp)
  split at h
  · injection h with h1
    injection h1 with h2 h3
    subst h2
    exact ⟨⟨le_refl _, le_refl _, le_refl _, le_refl _⟩, rfl⟩
  · injection h with h1
    injection h1 with h2 h3
    subst h2
    have hd := dedApply_mono_ews s now pid
    have hc := dedSweep_eqCore (dedApply s now pid)
    exact ⟨Mono4.transLe hd.1 (Mono4.ofEqCore hc), hc.ewsEq.symm.trans hd.2⟩

theorem batchItem_mono_ews {s s' : State} {now pid : Nat}
    (h : batchItem s now pid = .ok s') :
    Mono4 s s' ∧ s'.emergencyWithdrawals = s.emergencyWithdrawals := by
  unfold batchItem at h
  split at h
  · injection h with h1
    subst h1
    exact ⟨⟨le_refl _, le_refl _, le_refl _, le_refl _⟩, rfl⟩
  split at h
  · injection h with h1
    subst h1
    exact ⟨⟨le_refl _, le_refl _, le_refl _, le_refl _⟩, rfl⟩
  split at h
  · injection h with h1
    subst h1
    exact ⟨⟨le_refl _, le_refl _, le_refl _, le_refl _⟩, rfl⟩
  split at h
  · injection h with h1
    subst h1
    exact ⟨⟨le_refl _, le_refl _, le_refl _, le_refl _⟩, rfl⟩
  split at h
  · exact absurd h (by simp)
  split at h
  · injection h with h1
    subst h1
    exact ⟨⟨le_refl _, le_refl _, le_refl _, le_refl _⟩, rfl⟩
  split at h
  · injection h with h1
    subst h1
    exact ⟨⟨le_refl _, le_refl _, le_refl _, le_refl _⟩, rfl⟩
  · injection h with h1
    subst h1
    exact dedApply_mono_ews s now pid

theorem batchLoop_mono_ews {now : Nat} {l : List Nat} :
    ∀ {s s' : State}, batchLoop s now l = .ok s' →
    Mono4 s s' ∧ s'.emergencyWithdrawals = s.emergencyWithdrawals := by
  induction l with
  | nil =>
    intro s s' h
    unfold batchLoop at h
    injection h with h1
    subst h1
    exact ⟨⟨le_refl _, le_refl _, le_refl _, le_refl _⟩, rfl⟩
  | cons pid rest ih =>
    intro s s' h
    unfold batchLoop at h
    split at h
    · exact absurd h (by simp)
    · rename_i s1 heq
      obtain ⟨m1, e1⟩ := batchItem_mono_ews heq
      obtain ⟨m2, e2⟩ := ih h
      exact ⟨Mono4.transLe m1 m2, e2.trans e1⟩

theorem executeDeductionsBatch_mono_ews {s s' : State} {c : Addr} {now : Nat}
    {pids : List Nat} (h : executeDeductionsBatch s c now pids = .ok s') :
    Mono4 s s' ∧ s'.emergencyWithdrawals = s.emergencyWithdrawals := by
  unfold executeDeductionsBatch at h
  split at h
  · exact absurd h (by simp)
  · split at h
    · exact absurd h (by simp)
    · rename_i s1 hloop
      obtain ⟨m1, e1⟩ := batchLoop_mono_ews hloop
      split at h
      · injection h with h1
        subst h1
        exact ⟨m1, e1⟩
      · split at h
        · injection h with h1
          subst h1
          have hc := depositToYield_eqCore s1 (s1.balances contractAddr - s.balances contractAddr)
          exact ⟨Mono4.transLe m1 (Mono4.ofEqCore hc), hc.ewsEq.symm.trans e1⟩
        · injection h with h1
          subst h1
          exact ⟨m1, e1⟩

theorem withdraw_mono_ews {s s' : State} {c : Addr} {now pid amt : Nat} {o : WOut}
    (h : withdraw s c now pid amt = .ok (s', o)) :
    Mono4 s s' ∧ s'.emergencyWithdrawals = s.emergencyWithdrawals := by
  unfold withdraw at h
  split at h
  · exact absurd h (by simp)
  split at h
  · exact absurd h (by simp)
  split at h
  · exact absurd h (by simp)
  split at h
  · exact absurd h (by simp)
  split at h
  · exact absurd h (by simp)
  · rename_i s3 heq
    injection h with h1
    injection h1 with h2 h3
    subst h2
    have hc : EqCore (setPlan s pid
        (withdrawPlanAfter (s.plans pid) (withdrawRequested (s.plans pid) amt))) s3 :=
      EqCore.transEq (pullLiquidity_eqCore _ _) (transferTok_eqCore heq)
    exact ⟨⟨hc.totalPlansEq.le, hc.totalPrincipalEq.le, hc.totalUserYieldEq.le,
      hc.totalProtocolYieldEq.le⟩, hc.ewsEq.symm⟩

theorem calculateAndDistributeYield_mono_ews {s s' : State} {now pid y : Nat}
    (h : calculateAndDistributeYield s now pid = .ok (s', y)) :
    Mono4 s s' ∧ s'.emergencyWithdrawals = s.emergencyWithdrawals := by
  unfold calculateAndDistributeYield at h
  split at h
  · injection h with h1
    injection h1 with h2 h3
    subst h2
    exact ⟨⟨le_refl _, le_refl _, le_refl _, le_refl _⟩, rfl⟩
  split at h
  · injection h with h1
    injection h1 with h2 h3
    subst h2
    exact ⟨⟨le_refl _, le_refl _, le_refl _, le_refl _⟩, rfl⟩
  split at h
  · exact absurd h (by simp)
  split at h
  · exact absurd h (by simp)
  split at h
  · injection h with h1
    injection h1 with h2 h3
    subst h2
    exact ⟨⟨le_refl _, le_refl _, le_refl _, le_refl _⟩, rfl⟩
  · injection h with h1
    injection h1 with h2 h3
    subst h2
    exact ⟨⟨le_refl _, le_refl _, Nat.le_add_right _ _, le_refl _⟩, rfl⟩

theorem claimYield_mono_ews {s s' : State} {c : Addr} {now pid y : Nat}
    (h : claimYield s c now pid = .ok (s', y)) :
    Mono4 s s' ∧ s'.emergencyWithdrawals = s.emergencyWithdrawals := by
  unfold claimYield at h
  split at h
  · exact absurd h (by simp)
  split at h
  · exact absurd h (by simp)
  split at h
  · exact absurd h (by simp)
  · split at h
    · exact absurd h (by simp)
    · rename_i s1 y1 hcd
      obtain ⟨m1, e1⟩ := calculateAndDistributeYield_mono_ews hcd
      split at h
      · injection h with h1
        injection h1 with h2 h3
        subst h2
        exact ⟨m1, e1⟩
      · split at h
        · exact absurd h (by simp)
        · rename_i s3 heq
          injection h with h1
          injection h1 with h2 h3
          subst h2
          have hc : EqCore s1 s3 :=
            EqCore.transEq (pullLiquidity_eqCore _ _) (transferTok_eqCore heq)
          exact ⟨Mono4.transLe m1 (Mono4.ofEqCore hc), hc.ewsEq.symm.trans e1⟩

theorem withdrawProtocolFees_facts {s s' : State} {c d : Addr} {amt : Nat}
    (h : withdrawProtocolFees s c amt d = .ok s') :
    s'.totalPlans = s.totalPlans ∧ s'.totalPrincipal = s.totalPrincipal ∧
    s'.totalUserYield = s.totalUserYield ∧
    s'.emergencyWithdrawals = s.emergencyWithdrawals := by
  unfold withdrawProtocolFees at h
  split at h
  · exact absurd h (by simp)
  split at h
  · exact absurd h (by simp)
  split at h
  · exact absurd h (by simp)
  · have hc := transferTok_eqCore h
    exact ⟨hc.totalPlansEq.symm, hc.totalPrincipalEq.symm, hc.totalUserYieldEq.symm,
      hc.ewsEq.symm⟩

theorem scheduleEmergencyWithdrawal_facts {s s' : State} {c u : Addr}
    {now pid amt r : Nat} {wid : WId}
    (h : scheduleEmergencyWithdrawal s c u now pid amt r = .ok (s', wid)) :
    Mono4 s s' ∧
    wid = { admin := c, user := u, planId := pid, amount := amt, timestamp := now
            reasonHash := r } ∧
    (∀ wid', wid' ≠ wid → s'.emergencyWithdrawals wid' = s.emergencyWithdrawals wid') := by
  unfold scheduleEmergencyWithdrawal at h
  split at h
  · exact absurd h (by simp)
  split at h
  · exact absurd h (by simp)
  split at h
  · exact absurd h (by simp)
  split at h
  · exact absurd h (by simp)
  · injection h with h1
    injection h1 with h2 h3
    subst h2
    subst h3
    refine ⟨⟨le_refl _, le_refl _, le_refl _, le_refl _⟩, rfl, ?_⟩
    intro wid' hne
    simp [setEW, hne]

theorem executeEmergencyWithdrawal_facts {s s' : State} {c : Addr} {now : Nat}
    {wid : WId} {o : EWOut}
    (h : executeEmergencyWithdrawal s c now wid = .ok (s', o)) :
    Mono4 s s' ∧
    s'.emergencyWithdrawals wid =
      { s.emergencyWithdrawals wid with executed := true } ∧
    (∀ wid', wid' ≠ wid → s'.emergencyWithdrawals wid' = s.emergencyWithdrawals wid') ∧
    (s.emergencyWithdrawals wid).executed = false ∧
    (s.emergencyWithdrawals wid).cancelled = false ∧
    ¬now < (s.emergencyWithdrawals wid).executionTime := by
  unfold executeEmergencyWithdrawal at h
  split at h
  · exact absurd h (by simp)
  split at h
  · exact absurd h (by simp)
  split at h
  · exact absurd h (by simp)
  split at h
  · exact absurd h (by simp)
  rename_i hexec
  split at h
  · exact absurd h (by simp)
  rename_i hcanc
  split at h
  · exact absurd h (by simp)
  rename_i hready
  split at h
  · exact absurd h (by simp)
  · rename_i s3 heq
    injection h with h1
    injection h1 with h2 h3
    subst h2
    have hc := transferTok_eqCore heq
    refine ⟨?_, ?_, ?_, by simpa using hexec, by simpa using hcanc, hready⟩
    · exact ⟨((pullLiquidity_eqCore s _).totalPlansEq.trans hc.totalPlansEq).le,
        ((pullLiquidity_eqCore s _).totalPrincipalEq.trans hc.totalPrincipalEq).le,
        ((pullLiquidity_eqCore s _).totalUserYieldEq.trans hc.totalUserYieldEq).le,
        ((pullLiquidity_eqCore s _).totalProtocolYieldEq.trans hc.totalProtocolYieldEq).le⟩
    · rw [← hc.ewsEq]
      simp [setEW]
    · intro wid' hne
      rw [← hc.ewsEq]
      simp [setEW, hne]
      exact congrFun (pullLiquidity_eqCore s _).ewsEq.symm wid'

theorem cancelEmergencyWithdrawal_facts {s s' : State} {c : Addr} {wid : WId}
    (h : cancelEmergencyWithdrawal s c wid = .ok s') :
    Mono4 s s' ∧
    s'.emergencyWithdrawals wid =
      { s.emergencyWithdrawals wid with cancelled := true } ∧
    (∀ wid', wid' ≠ wid → s'.emergencyWithdrawals wid' = s.emergencyWithdrawals wid') ∧
    (s.emergencyWithdrawals wid).executed = false ∧
    (s.emergencyWithdrawals wid).cancelled = false := by
  unfold cancelEmergencyWithdrawal at h
  split at h
  · exact absurd h (by simp)
  split at h
  · exact absurd h (by simp)
  split at h
  · exact absurd h (by simp)
  rename_i hexec
  split at h
  · exact absurd h (by simp)
  rename_i hcanc
  · injection h with h1
    subst h1
    refine ⟨⟨le_refl _, le_refl _, le_refl _, le_refl _⟩, by simp [setEW], ?_,
      by simpa using hexec, by simpa using hcanc⟩
    intro wid' hne
    simp [setEW, hne]

/--
**C8 (amended).** `totalPlans`, `totalPrincipal` and `totalUserYield` are
monotonic: no operation of the contract ever decreases them.
`totalProtocolYield` never decreases under any operation other than
`withdrawProtocolFees` (which pays accrued protocol fees out and debits it —
the original claim's unqualified monotonicity for `totalProtocolYield` is
refuted by the counterexample).
-/
theorem c8_counter_monotonicity_amended (s : State) (op : Op) :
    s.totalPlans ≤ (step s op).totalPlans ∧
    s.totalPrincipal ≤ (step s op).totalPrincipal ∧
    s.totalUserYield ≤ (step s op).totalUserYield ∧
    (isWithdrawProtocolFees op = false →
      s.totalProtocolYield ≤ (step s op).totalProtocolYield) := by
  rcases hop : execOp s op with e | s'
  · rw [step_of_error hop]
    exact ⟨le_refl _, le_refl _, le_refl _, fun _ => le_refl _⟩
  · rw [step_of_ok hop]
    cases op with
    | createPlan c now amt dur =>
      simp only [execOp] at hop
      obtain ⟨o, hx⟩ := map_fst_ok hop
      obtain ⟨m, -⟩ := createPlan_mono_ews hx
      exact ⟨m.plansLe, m.principalLe, m.userYieldLe, fun _ => m.protocolYieldLe⟩
    | executeDeduction c now pid =>
      simp only [execOp] at hop
      obtain ⟨o, hx⟩ := map_fst_ok hop
      obtain ⟨m, -⟩ := executeDeduction_mono_ews hx
      exact ⟨m.plansLe, m.principalLe, m.userYieldLe, fun _ => m.protocolYieldLe⟩
    | executeDeductionsBatch c now pids =>
      simp only [execOp] at hop
      obtain ⟨m, -⟩ := executeDeductionsBatch_mono_ews hop
      exact ⟨m.plansLe, m.principalLe, m.userYieldLe, fun _ => m.protocolYieldLe⟩
    | withdraw c now pid amt =>
      simp only [execOp] at hop
      obtain ⟨o, hx⟩ := map_fst_ok hop
      obtain ⟨m, -⟩ := withdraw_mono_ews hx
      exact ⟨m.plansLe, m.principalLe, m.userYieldLe, fun _ => m.protocolYieldLe⟩
    | claimYield c now pid =>
      simp only [execOp] at hop
      obtain ⟨o, hx⟩ := map_fst_ok hop
      obtain ⟨m, -⟩ := claimYield_mono_ews hx
      exact ⟨m.plansLe, m.principalLe, m.userYieldLe, fun _ => m.protocolYieldLe⟩
    | harvestYield c now =>
      simp only [execOp] at hop
      obtain ⟨m, -⟩ := harvestYield_mono_ews hop
      exact ⟨m.plansLe, m.principalLe, m.userYieldLe, fun _ => m.protocolYieldLe⟩
    | emergencyExitYield c =>
      simp only [execOp] at hop
      obtain ⟨m, -⟩ := emergencyExitYield_mono_ews hop
      exact ⟨m.plansLe, m.principalLe, m.userYieldLe, fun _ => m.protocolYieldLe⟩
    | scheduleEmergencyWithdrawal c u now pid amt r =>
      simp only [execOp] at hop
      obtain ⟨o, hx⟩ := map_fst_ok hop
      have m := (scheduleEmergencyWithdrawal_facts hx).1
      exact ⟨m.plansLe, m.principalLe, m.userYieldLe, fun _ => m.protocolYieldLe⟩
    | executeEmergencyWithdrawal c now wid =>
      simp only [execOp] at hop
      obtain ⟨o, hx⟩ := map_fst_ok hop
      have m := (executeEmergencyWithdrawal_facts hx).1
      exact ⟨m.plansLe, m.principalLe, m.userYieldLe, fun _ => m.protocolYieldLe⟩
    | cancelEmergencyWithdrawal c wid =>
      simp only [execOp] at hop
      have m := (cancelEmergencyWithdrawal_facts hop).1
      exact ⟨m.plansLe, m.principalLe, m.userYieldLe, fun _ => m.protocolYieldLe⟩
    | withdrawProtocolFees c amt dst =>
      simp only [execOp] at hop
      obtain ⟨e1, e2, e3, -⟩ := withdrawProtocolFees_facts hop
      refine ⟨e1.ge, e2.ge, e3.ge, ?_⟩
      intro hx
      exact absurd hx (by simp [isWithdrawProtocolFees])
    | pause c =>
      simp only [execOp] at hop
      obtain ⟨m, -⟩ := pause_mono_ews hop
      exact ⟨m.plansLe, m.principalLe, m.userYieldLe, fun _ => m.protocolYieldLe⟩
    | unpause c =>
      simp only [execOp] at hop
      obtain ⟨m, -⟩ := unpause_mono_ews hop
      exact ⟨m.plansLe, m.principalLe, m.userYieldLe, fun _ => m.protocolYieldLe⟩
    | setYieldProtocol c yp =>
      simp only [execOp] at hop
      obtain ⟨m, -⟩ := setYieldProtocol_mono_ews hop
      exact ⟨m.plansLe, m.principalLe, m.userYieldLe, fun _ => m.protocolYieldLe⟩
    | setEarlyWithdrawalPenalty c p =>
      simp only [execOp] at hop
      obtain ⟨m, -⟩ := setEarlyWithdrawalPenalty_mono_ews hop
      exact ⟨m.plansLe, m.principalLe, m.userYieldLe, fun _ => m.protocolYieldLe⟩
    | setDailyDeductionLimits c lo hi =>
      simp only [execOp] at hop
      obtain ⟨m, -⟩ := setDailyDeductionLimits_mono_ews hop
      exact ⟨m.plansLe, m.principalLe, m.userYieldLe, fun _ => m.protocolYieldLe⟩
    | setYieldDistribution c u f =>
      simp only [execOp] at hop
      obtain ⟨m, -⟩ := setYieldDistribution_mono_ews hop
      exact ⟨m.plansLe, m.principalLe, m.userYieldLe, fun _ => m.protocolYieldLe⟩
    | setMinYieldDepositThreshold c t =>
      simp only [execOp] at hop
      obtain ⟨m, -⟩ := setMinYieldDepositThreshold_mono_ews hop
      exact ⟨m.plansLe, m.principalLe, m.userYieldLe, fun _ => m.protocolYieldLe⟩
    | setEmergencyWithdrawalDelay c d =>
      simp only [execOp] at hop
      obtain ⟨m, -⟩ := setEmergencyWithdrawalDelay_mono_ews hop
      exact ⟨m.plansLe, m.principalLe, m.userYieldLe, fun _ => m.protocolYieldLe⟩
    | grantRole c r w =>
      simp only [execOp] at hop
      obtain ⟨m, -⟩ := grantRole_mono_ews hop
      exact ⟨m.plansLe, m.principalLe, m.userYieldLe, fun _ => m.protocolYieldLe⟩
    | revokeRole c r w =>
      simp only [execOp] at hop
      obtain ⟨m, -⟩ := revokeRole_mono_ews hop
      exact ⟨m.plansLe, m.principalLe, m.userYieldLe, fun _ => m.protocolYieldLe⟩

/-- Witness for C8: the amended monotonicity evaluated at a concrete
`executeDeduction` step (which is not a `withdrawProtocolFees` call, so all
four counters apply). -/
theorem c8_counter_monotonicity_witness :
    c1S.totalPlans ≤ (step c1S (Op.executeDeduction 6 3592000 1)).totalPlans ∧
    c1S.totalPrincipal ≤ (step c1S (Op.executeDeduction 6 3592000 1)).totalPrincipal ∧
    c1S.totalUserYield ≤ (step c1S (Op.executeDeduction 6 3592000 1)).totalUserYield ∧
    c1S.totalProtocolYield ≤
      (step c1S (Op.executeDeduction 6 3592000 1)).totalProtocolYield := by
  have h := c8_counter_monotonicity_amended c1S (Op.executeDeduction 6 3592000 1)
  exact ⟨h.1, h.2.1, h.2.2.1, h.2.2.2 rfl⟩

theorem schedulesWId_false_ne {c u : Addr} {now pid amt r : Nat} {wid : WId}
    (h : schedulesWId (.scheduleEmergencyWithdrawal c u now pid amt r) wid = false) :
    wid ≠ { admin := c, user := u, planId := pid, amount := amt, timestamp := now
            reasonHash := r } := by
  intro he
  subst he
  simp [schedulesWId] at h

theorem execEWSucceeds_ne {s : State} {c : Addr} {now : Nat} {wid wid' : WId}
    (hw : wid' ≠ wid) :
    execEWSucceeds s (.executeEmergencyWithdrawal c now wid') wid = false := by
  simp [execEWSucceeds, hw]

theorem execEWSucceeds_error {s : State} {c : Addr} {now : Nat} {wid wid' : WId} {e : Err}
    (he : executeEmergencyWithdrawal s c now wid = .error e) :
    execEWSucceeds s (.executeEmergencyWithdrawal c now wid') wid = false := by
  by_cases hw : wid' = wid
  · subst hw
    simp [execEWSucceeds, he, resOk]
  · exact execEWSucceeds_ne hw

/--
How one call can change the monitored emergency-withdrawal request: provided
the call is not a `schedule` writing this id, a set `executed` flag persists
(and such a request can never be executed again), a set `cancelled` flag
persists (and blocks execution), and a successful execution leaves the flag
`executed` set.
-/
theorem step_ews_preserve (s : State) (op : Op) (wid : WId)
    (hns : schedulesWId op wid = false) :
    ((s.emergencyWithdrawals wid).executed = true →
      ((step s op).emergencyWithdrawals wid).executed = true ∧
      execEWSucceeds s op wid = false) ∧
    ((s.emergencyWithdrawals wid).cancelled = true →
      ((step s op).emergencyWithdrawals wid).cancelled = true ∧
      execEWSucceeds s op wid = false) ∧
    (execEWSucceeds s op wid = true →
      ((step s op).emergencyWithdrawals wid).executed = true) := by
  have triv : ((step s op).emergencyWithdrawals wid = s.emergencyWithdrawals wid) →
      execEWSucceeds s op wid = false →
      (((s.emergencyWithdrawals wid).executed = true →
        ((step s op).emergencyWithdrawals wid).executed = true ∧
        execEWSucceeds s op wid = false) ∧
      ((s.emergencyWithdrawals wid).cancelled = true →
        ((step s op).emergencyWithdrawals wid).cancelled = true ∧
        execEWSucceeds s op wid = false) ∧
      (execEWSucceeds s op wid = true →
        ((step s op).emergencyWithdrawals wid).executed = true)) := by
    intro he hf
    exact ⟨fun hx => ⟨he ▸ hx, hf⟩, fun hx => ⟨he ▸ hx, hf⟩,
      fun hx => absurd hx (by simp [hf])⟩
  rcases hop : execOp s op with e | s'
  · apply triv (by rw [step_of_error hop]) ?_
    cases op with
    | executeEmergencyWithdrawal c now wid' =>
      simp only [execOp] at hop
      cases hres : executeEmergencyWithdrawal s c now wid' with
      | error e1 =>
        by_cases hw : wid' = wid
        · subst hw
          exact execEWSucceeds_error hres
        · exact execEWSucceeds_ne hw
      | ok p => rw [hres] at hop; exact absurd hop (by simp [Except.map])
    | createPlan c now amt dur => rfl
    | executeDeduction c now pid => rfl
    | executeDeductionsBatch c now pids => rfl
    | withdraw c now pid amt => rfl
    | claimYield c now pid => rfl
    | harvestYield c now => rfl
    | emergencyExitYield c => rfl
    | scheduleEmergencyWithdrawal c u now pid amt r => rfl
    | cancelEmergencyWithdrawal c wid' => rfl
    | withdrawProtocolFees c amt dst => rfl
    | pause c => rfl
    | unpause c => rfl
    | setYieldProtocol c yp => rfl
    | setEarlyWithdrawalPenalty c p => rfl
    | setDailyDeductionLimits c lo hi => rfl
    | setYieldDistribution c u f => rfl
    | setMinYieldDepositThreshold c t => rfl
    | setEmergencyWithdrawalDelay c d => rfl
    | grantRole c r w => rfl
    | revokeRole c r w => rfl
  · have hstep : step s op = s' := step_of_ok hop
    cases op with
    | createPlan c now amt dur =>
      simp only [execOp] at hop
      obtain ⟨o, hx⟩ := map_fst_ok hop
      exact triv (by rw [hstep, (createPlan_mono_ews hx).2]) rfl
    | executeDeduction c now pid =>
      simp only [execOp] at hop
      obtain ⟨o, hx⟩ := map_fst_ok hop
      exact triv (by rw [hstep, (executeDeduction_mono_ews hx).2]) rfl
    | executeDeductionsBatch c now pids =>
      simp only [execOp] at hop
      exact triv (by rw [hstep, (executeDeductionsBatch_mono_ews hop).2]) rfl
    | withdraw c now pid amt =>
      simp only [execOp] at hop
      obtain ⟨o, hx⟩ := map_fst_ok hop
      exact triv (by rw [hstep, (withdraw_mono_ews hx).2]) rfl
    | claimYield c now pid =>
      simp only [execOp] at hop
      obtain ⟨o, hx⟩ := map_fst_ok hop
      exact triv (by rw [hstep, (claimYield_mono_ews hx).2]) rfl
    | harvestYield c now =>
      simp only [execOp] at hop
      exact triv (by rw [hstep, (harvestYield_mono_ews hop).2]) rfl
    | emergencyExitYield c =>
      simp only [execOp] at hop
      exact triv (by rw [hstep, (emergencyExitYield_mono_ews hop).2]) rfl
    | scheduleEmergencyWithdrawal c u now pid amt r =>
      simp only [execOp] at hop
      obtain ⟨o, hx⟩ := map_fst_ok hop
      obtain ⟨-, hwidEq, hpres⟩ := scheduleEmergencyWithdrawal_facts hx
      refine triv ?_ rfl
      rw [hstep]
      exact hpres wid (hwidEq ▸ schedulesWId_false_ne hns)
    | executeEmergencyWithdrawal c now wid' =>
      simp only [execOp] at hop
      obtain ⟨o, hx⟩ := map_fst_ok hop
      obtain ⟨-, hset, hpres, hexec, hcanc, -⟩ := executeEmergencyWithdrawal_facts hx
      by_cases hw : wid' = wid
      · subst hw
        refine ⟨fun hcontra => absurd hcontra (by simp [hexec]),
          fun hcontra => absurd hcontra (by simp [hcanc]), fun _ => ?_⟩
        rw [hstep, hset]
      · refine triv ?_ (execEWSucceeds_ne hw)
        rw [hstep]
        exact hpres wid (fun hh => hw hh.symm)
    | cancelEmergencyWithdrawal c wid' =>
      simp only [execOp] at hop
      obtain ⟨-, hset, hpres, hexec, hcanc⟩ := cancelEmergencyWithdrawal_facts hop
      by_cases hw : wid' = wid
      · subst hw
        exact ⟨fun hcontra => absurd hcontra (by simp [hexec]),
          fun hcontra => absurd hcontra (by simp [hcanc]),
          fun hcontra => absurd hcontra (by simp [execEWSucceeds])⟩
      · refine triv ?_ rfl
        rw [hstep]
        exact hpres wid (fun hh => hw hh.symm)
    | withdrawProtocolFees c amt dst =>
      simp only [execOp] at hop
      exact triv (by rw [hstep, (withdrawProtocolFees_facts hop).2.2.2]) rfl
    | pause c =>
      simp only [execOp] at hop
      exact triv (by rw [hstep, (pause_mono_ews hop).2]) rfl
    | unpause c =>
      simp only [execOp] at hop
      exact triv (by rw [hstep, (unpause_mono_ews hop).2]) rfl
    | setYieldProtocol c yp =>
      simp only [execOp] at hop
      exact triv (by rw [hstep, (setYieldProtocol_mono_ews hop).2]) rfl
    | setEarlyWithdrawalPenalty c p =>
      simp only [execOp] at hop
      exact triv (by rw [hstep, (setEarlyWithdrawalPenalty_mono_ews hop).2]) rfl
    | setDailyDeductionLimits c lo hi =>
      simp only [execOp] at hop
      exact triv (by rw [hstep, (setDailyDeductionLimits_mono_ews hop).2]) rfl
    | setYieldDistribution c u f =>
      simp only [execOp] at hop
      exact triv (by rw [hstep, (setYieldDistribution_mono_ews hop).2]) rfl
    | setMinYieldDepositThreshold c t =>
      simp only [execOp] at hop
      exact triv (by rw [hstep, (setMinYieldDepositThreshold_mono_ews hop).2]) rfl
    | setEmergencyWithdrawalDelay c d =>
      simp only [execOp] at hop
      exact triv (by rw [hstep, (setEmergencyWithdrawalDelay_mono_ews hop).2]) rfl
    | grantRole c r w =>
      simp only [execOp] at hop
      exact triv (by rw [hstep, (grantRole_mono_ews hop).2]) rfl
    | revokeRole c r w =>
      simp only [execOp] at hop
      exact triv (by rw [hstep, (revokeRole_mono_ews hop).2]) rfl

theorem countExecEW_executed_zero {wid : WId} : ∀ (ops : List Op) (s : State),
    (∀ op ∈ ops, schedulesWId op wid = false) →
    (s.emergencyWithdrawals wid).executed = true → countExecEW s ops wid = 0 := by
  intro ops
  induction ops with
  | nil => intro s _ _; rfl
  | cons op rest ih =>
    intro s hsched hex
    have hp := step_ews_preserve s op wid (hsched op (by simp))
    obtain ⟨hex', hf⟩ := hp.1 hex
    have hrest := ih (step s op) (fun o ho => hsched o (by simp [ho])) hex'
    simp [countExecEW, hf, hrest]

theorem countExecEW_cancelled_zero {wid : WId} : ∀ (ops : List Op) (s : State),
    (∀ op ∈ ops, schedulesWId op wid = false) →
    (s.emergencyWithdrawals wid).cancelled = true → countExecEW s ops wid = 0 := by
  intro ops
  induction ops with
  | nil => intro s _ _; rfl
  | cons op rest ih =>
    intro s hsched hcn
    have hp := step_ews_preserve s op wid (hsched op (by simp))
    obtain ⟨hcn', hf⟩ := hp.2.1 hcn
    have hrest := ih (step s op) (fun o ho => hsched o (by simp [ho])) hcn'
    simp [countExecEW, hf, hrest]

theorem countExecEW_le_one {wid : WId} : ∀ (ops : List Op) (s : State),
    (∀ op ∈ ops, schedulesWId op wid = false) →
    countExecEW s ops wid ≤ 1 := by
  intro ops
  induction ops with
  | nil => intro s _; exact Nat.zero_le 1
  | cons op rest ih =>
    intro s hsched
    have hp := step_ews_preserve s op wid (hsched op (by simp))
    by_cases hb : execEWSucceeds s op wid = true
    · have hex' := hp.2.2 hb
      have hrest := countExecEW_executed_zero rest (step s op)
        (fun o ho => hsched o (by simp [ho])) hex'
      simp [countExecEW, hb, hrest]
    · have hb' : execEWSucceeds s op wid = false := by
        cases hx : execEWSucceeds s op wid
        · rfl
        · exact absurd hx hb
      have hrest := ih (step s op) (fun o ho => hsched o (by simp [ho]))
      simpa [countExecEW, hb'] using hrest

/--
**C4 (amended).** For any trace that never re-schedules the monitored request
id (no `scheduleEmergencyWithdrawal` with the identical admin, user, plan,
amount, timestamp and reason — an identical same-timestamp re-scheduling
overwrites the record and resets these guarantees, as the counterexample
shows): at most one `executeEmergencyWithdrawal(id)` in the trace succeeds;
once the request is executed or cancelled, no execution of it ever succeeds;
a call before the request's `executionTime` always fails with no state
change, and for a pending request (known, unexecuted, uncancelled, by an
emergency admin while paused) the error is `EmergencyWithdrawalNotReady`.
-/
theorem c4_emergency_lifecycle_amended (s : State) (ops : List Op) (wid : WId)
    (hsched : ∀ op ∈ ops, schedulesWId op wid = false) :
    countExecEW s ops wid ≤ 1 ∧
    ((s.emergencyWithdrawals wid).executed = true → countExecEW s ops wid = 0) ∧
    ((s.emergencyWithdrawals wid).cancelled = true → countExecEW s ops wid = 0) ∧
    (∀ caller now, now < (s.emergencyWithdrawals wid).executionTime →
      resOk (executeEmergencyWithdrawal s caller now wid) = false ∧
      step s (Op.executeEmergencyWithdrawal caller now wid) = s) ∧
    (∀ caller now, s.hasEmergencyRole caller = true → s.paused = true →
      (s.emergencyWithdrawals wid).admin ≠ 0 →
      (s.emergencyWithdrawals wid).executed = false →
      (s.emergencyWithdrawals wid).cancelled = false →
      now < (s.emergencyWithdrawals wid).executionTime →
      executeEmergencyWithdrawal s caller now wid =
        .error .EmergencyWithdrawalNotReady) := by
  refine ⟨countExecEW_le_one ops s hsched,
    fun hx => countExecEW_executed_zero ops s hsched hx,
    fun hx => countExecEW_cancelled_zero ops s hsched hx, ?_, ?_⟩
  · intro caller now hlt
    have hfail : resOk (executeEmergencyWithdrawal s caller now wid) = false := by
      rcases hres : executeEmergencyWithdrawal s caller now wid with e | p
      · rfl
      · obtain ⟨s2, o⟩ := p
        exact absurd hlt (executeEmergencyWithdrawal_facts hres).2.2.2.2.2
    refine ⟨hfail, ?_⟩
    obtain ⟨e, he⟩ := resOk_false_iff.mp hfail
    have hm : execOp s (Op.executeEmergencyWithdrawal caller now wid) = .error e := by
      simp [execOp, he, Except.map]
    exact step_of_error hm
  · intro caller now hrole hp hadmin hexec hcanc hlt
    unfold executeEmergencyWithdrawal
    rw [if_neg (by simp [hrole]), if_neg (by simp [hp]), if_neg hadmin,
      if_neg (by simp [hexec]), if_neg (by simp [hcanc]), if_pos hlt]

/-- Witness for C4: the amended lifecycle evaluated on the concrete scheduled
request (two attempted executions, no re-scheduling in the trace; a call at
t=5000 is before `executionTime = 5100` and fails with
`EmergencyWithdrawalNotReady`, changing nothing). -/
theorem c4_emergency_lifecycle_witness :
    countExecEW (step c4S c4Op1) [c4Op4, c4Op4] c4Wid ≤ 1 ∧
    resOk (executeEmergencyWithdrawal (step c4S c4Op1) 7 5000 c4Wid) = false ∧
    step (step c4S c4Op1) (Op.executeEmergencyWithdrawal 7 5000 c4Wid) =
      step c4S c4Op1 ∧
    executeEmergencyWithdrawal (step c4S c4Op1) 7 5000 c4Wid =
      .error .EmergencyWithdrawalNotReady := by
  have h := c4_emergency_lifecycle_amended (step c4S c4Op1) [c4Op4, c4Op4] c4Wid
    (by decide)
  exact ⟨h.1, (h.2.2.2.1 7 5000 (by decide)).1, (h.2.2.2.1 7 5000 (by decide)).2,
    h.2.2.2.2 7 5000 rfl rfl (by decide) (by decide) (by decide) (by decide)⟩

/--
**C9 (amended).** The two yield paths share the zero guards but not the
formula: when `totalPrincipal` or `totalYieldShares` is zero both return
zero; on a valid plan with deposits, the read-only `getAccumulatedYield`
returns exactly the spec's shared formula
(`principalDeposited * totalYieldShares / totalPrincipal`, scaled by the time
factor and `userYieldShareBps / 10000`), whereas the mutating
`_calculateAndDistributeYield` returns `distYieldAmount` — the plan's share
of pooled shares additionally scaled by the vault's harvestable yield per
share (`(getBalance() - totalPrincipal) / totalYieldShares`, with zero result
when the vault balance does not exceed `totalPrincipal`) — and credits it to
`plan.yieldEarned` and `totalUserYield`.  The two amounts differ in general,
as the counterexample shows.
-/
theorem c9_yield_paths_amended (s : State) (now planId : Nat) :
    ((s.totalPrincipal = 0 ∨ s.totalYieldShares = 0) →
      ¬(planId = 0 ∨ planId > s.totalPlans) →
      getAccumulatedYield s now planId = .ok 0 ∧
      calculateAndDistributeYield s now planId = .ok (s, 0)) ∧
    (∀ tf, calculateTimeFactor now (s.plans planId) = .ok tf →
      ¬(planId = 0 ∨ planId > s.totalPlans) →
      (s.plans planId).principalDeposited ≠ 0 →
      ¬(s.totalPrincipal = 0 ∨ s.totalYieldShares = 0) →
      getAccumulatedYield s now planId = .ok (specSharedYieldFormula s planId tf)) ∧
    (∀ s' y tf yp, calculateTimeFactor now (s.plans planId) = .ok tf →
      s.yieldProtocol = some yp →
      calculateAndDistributeYield s now planId = .ok (s', y) →
      ((s.plans planId).principalDeposited ≠ 0 →
        ¬(s.totalPrincipal = 0 ∨ s.totalYieldShares = 0) →
        s.totalPrincipal < yp.assets →
        y = distYieldAmount s planId tf yp.assets) ∧
      (s'.plans planId).yieldEarned = (s.plans planId).yieldEarned + y ∧
      s'.totalUserYield = s.totalUserYield + y) := by
  refine ⟨?_, ?_, ?_⟩
  · intro hTS hid
    constructor
    · unfold getAccumulatedYield
      rw [if_neg hid]
      by_cases hp0 : (s.plans planId).principalDeposited = 0
      · rw [if_pos hp0]
      · rw [if_neg hp0, if_pos hTS]
    · unfold calculateAndDistributeYield
      by_cases hp0 : (s.plans planId).principalDeposited = 0
      · rw [if_pos hp0]
      · rw [if_neg hp0, if_pos hTS]
  · intro tf htf hid hp0 hTS
    unfold getAccumulatedYield
    rw [if_neg hid, if_neg hp0, if_neg hTS, htf]
    rfl
  · intro s' y tf yp htf hyp hcd
    unfold calculateAndDistributeYield at hcd
    split at hcd
    · rename_i hp0
      injection hcd with h1
      injection h1 with h2 h3
      subst h2
      subst h3
      exact ⟨fun hcontra _ _ => absurd hp0 hcontra, by simp, by simp⟩
    split at hcd
    · rename_i hTS
      injection hcd with h1
      injection h1 with h2 h3
      subst h2
      subst h3
      exact ⟨fun _ hcontra _ => absurd hTS hcontra, by simp, by simp⟩
    · split at hcd
      · exact absurd hcd (by simp)
      · rename_i tf' htf'
        rw [htf] at htf'
        injection htf' with htfEq
        subst htfEq
        split at hcd
        · rename_i hnone
          rw [hyp] at hnone
          exact absurd hnone (by simp)
        · rename_i yp' hyp'
          rw [hyp] at hyp'
          injection hyp' with hypEq
          subst hypEq
          split at hcd
          · rename_i hle
            injection hcd with h1
            injection h1 with h2 h3
            subst h2
            subst h3
            exact ⟨fun _ _ hcontra => absurd hcontra (by omega), by simp, by simp⟩
          · injection hcd with h1
            injection h1 with h2 h3
            subst h2
            subst h3
            refine ⟨fun _ _ _ => rfl, ?_, ?_⟩
            · rw [setPlan_plans_self]
            · rfl

/-- Witness for C9 at the concrete matured plan next to a vault holding 50
units of yield: the read path returns the spec's shared formula (100), the
mutating path returns `distYieldAmount` (50) and credits it. -/
theorem c9_yield_paths_witness :
    getAccumulatedYield c9S 3000 1 = .ok (specSharedYieldFormula c9S 1 PRECISION) ∧
    retOf 0 (calculateAndDistributeYield c9S 3000 1) =
      distYieldAmount c9S 1 PRECISION 1050 ∧
    ((postState c9S (calculateAndDistributeYield c9S 3000 1)).plans 1).yieldEarned =
      (c9S.plans 1).yieldEarned + retOf 0 (calculateAndDistributeYield c9S 3000 1) ∧
    (postState c9S (calculateAndDistributeYield c9S 3000 1)).totalUserYield =
      c9S.totalUserYield + retOf 0 (calculateAndDistributeYield c9S 3000 1) := by
  have h := c9_yield_paths_amended c9S 3000 1
  have h2 := h.2.1 PRECISION rfl (by decide) (by decide) (by decide)
  have h3 := h.2.2 (postState c9S (calculateAndDistributeYield c9S 3000 1))
    (retOf 0 (calculateAndDistributeYield c9S 3000 1)) PRECISION
    { assets := 1050, healthy := true, depositOk := true, withdrawOk := true
      emergencyOk := true } rfl rfl rfl
  exact ⟨h2, h3.1 (by decide) (by decide) (by decide), h3.2.1, h3.2.2⟩

end SavingsPlan
